import Mathlib

/-!
Verification development for the ResumeAnalyzer repository.

The Python sources embedded here are resume_parser.py and
similarity_calculator.py.  Pure string/regex code is translated into
executable Lean definitions; Python regular expressions are interpreted
by a small backtracking engine (module RE below) whose enumeration order
mirrors the Python re module: leftmost match first, greedy quantifiers
try the longest repetition first, alternation is left biased.  Floats
are modelled by rationals; a note accompanies each place where this
matters.  External library calls (NLTK, PyPDF2, python-docx, file I/O)
are modelled at their interface, each with a doc comment saying so.
-/

/-! Section: Basic Python string helpers -/

/-- Characters treated as whitespace by Python str.strip and the regex
class backslash-s (ASCII fragment). -/
def pySpace (c : Char) : Bool :=
  c = ' ' || c = '\t' || c = '\n' || c = '\r' || c = '\x0b' || c = '\x0c'

/-- Word character for the regex class backslash-w and for word
boundaries (ASCII fragment: letters, digits, underscore). -/
def isWordChar (c : Char) : Bool := c.isAlphanum || c = '_'

/-- Build a string back from a character list. -/
def strOf (cs : List Char) : String := String.mk cs

/-- Python str.lower on a character list (ASCII). -/
def pyLowerL (cs : List Char) : List Char := cs.map Char.toLower

/-- Python str.lower (ASCII). -/
def pyLower (s : String) : String := strOf (pyLowerL s.toList)

/-- Python str.strip on a character list. -/
def pyStripL (cs : List Char) : List Char :=
  ((cs.dropWhile pySpace).reverse.dropWhile pySpace).reverse

/-- Python str.strip. -/
def pyStrip (s : String) : String := strOf (pyStripL s.toList)

/-- Does the second list start with the first one? -/
def startsList : List Char → List Char → Bool
  | [], _ => true
  | _ :: _, [] => false
  | a :: as, b :: bs => a = b && startsList as bs

/-- Substring test on character lists (Python "needle in hay"). -/
def containsSeq (needle : List Char) : List Char → Bool
  | [] => startsList needle []
  | c :: t => startsList needle (c :: t) || containsSeq needle t

/-- Python substring containment: needle in hay. -/
def substrContains (hay needle : String) : Bool :=
  containsSeq needle.toList hay.toList

/-- Python str.startswith. -/
def pyStartsWith (s pre : String) : Bool := startsList pre.toList s.toList

/-- Value of a decimal digit string (Python int on a digit group). -/
def digitsToNat (cs : List Char) : Nat :=
  cs.foldl (fun n c => n * 10 + (c.toNat - 48)) 0

/-- Number of decimal digits in a character list. -/
def countDigits (cs : List Char) : Nat := (cs.filter Char.isDigit).length

/-! Section: Word-boundary search for escaped literals

re.search of an escaped literal wrapped in word boundaries, as used by
extract_skills and the seniority/term scans.  A word boundary holds at
a position iff exactly one of the neighbouring characters is a word
character (a missing neighbour counts as non-word). -/

/-- Wordness of an optional character (absent counts as non-word). -/
def wordB : Option Char → Bool
  | some c => isWordChar c
  | none => false

/-- Word boundary between two optional characters. -/
def boundaryAt (a b : Option Char) : Bool := wordB a != wordB b

/-- Literal match at the head of the haystack, optionally
case-insensitive. -/
def matchesAt (ci : Bool) : List Char → List Char → Bool
  | [], _ => true
  | _ :: _, [] => false
  | p :: ps, h :: hs =>
    (if ci then p.toLower = h.toLower else p = h) && matchesAt ci ps hs

/-- Whole-word occurrence of the literal at the current position:
word boundary, the literal itself, word boundary. -/
def wwCheck (ci : Bool) (pat : List Char) (prev : Option Char) (hay : List Char) : Bool :=
  boundaryAt prev hay.head? && matchesAt ci pat hay &&
    boundaryAt ((hay.take pat.length).getLast?) ((hay.drop pat.length).head?)

/-- Scan for a whole-word occurrence of the literal anywhere in the
haystack (re.search of an escaped literal in word boundaries). -/
def wwSearch (ci : Bool) (pat : List Char) : Option Char → List Char → Bool
  | prev, [] => wwCheck ci pat prev []
  | prev, c :: t => wwCheck ci pat prev (c :: t) || wwSearch ci pat (some c) t

/-- Case-insensitive whole-word search on strings. -/
def hasWholeWordCI (pat text : String) : Bool :=
  wwSearch true pat.toList none text.toList

/-- Case-sensitive whole-word search on strings (used on pre-lowered
text with lowercase patterns). -/
def hasWholeWord (pat text : String) : Bool :=
  wwSearch false pat.toList none text.toList

/-- Existence of a whole-word match of any of the alternative literals
(re.search of a boundary-wrapped alternation of literals). -/
def hasAnyWholeWord (alts : List String) (text : String) : Bool :=
  alts.any (fun a => hasWholeWord a text)

/-- First whole-word occurrence position of the literal; returns the
pair (start index, end index) like a Python match span. -/
def wwFindPosAux (pat : List Char) : Option Char → Nat → List Char → Option (Nat × Nat)
  | prev, i, [] => if wwCheck false pat prev [] then some (i, i + pat.length) else none
  | prev, i, c :: t =>
    if wwCheck false pat prev (c :: t) then some (i, i + pat.length)
    else wwFindPosAux pat (some c) (i + 1) t

/-- Span of the first whole-word occurrence of the literal. -/
def wwFindPos (pat : List Char) (hay : List Char) : Option (Nat × Nat) :=
  wwFindPosAux pat none 0 hay

/-! Section: A backtracking regex engine

The state is the remaining input plus the previous character (needed
for word boundaries and the caret anchor).  A parser returns the list
of all ways to match, in exactly the order the Python re module would
try them, so taking the head of the list reproduces re semantics. -/

/-- Matching state: remaining input and previously consumed character. -/
def RState : Type := List Char × Option Char

/-- Backtracking matcher: all parses in Python trial order. -/
def RE (α : Type) : Type := RState → List (α × RState)

instance : Monad RE where
  pure a := fun s => [(a, s)]
  bind p f := fun s => (p s).flatMap (fun x => f x.1 x.2)

/-- Left-biased alternation. -/
def rOr (p q : RE α) : RE α := fun s => p s ++ q s

/-- Failing matcher. -/
def rFail : RE α := fun _ => []

/-- Ordered alternation of a list of matchers. -/
def rAltList (ps : List (RE α)) : RE α := ps.foldr rOr rFail

/-- Single character satisfying a predicate. -/
def rSat (f : Char → Bool) : RE Char := fun s =>
  match s.1 with
  | [] => []
  | c :: cs => if f c then [(c, (cs, some c))] else []

/-- Literal character. -/
def rChr (c : Char) : RE Char := rSat (fun d => d = c)

/-- Literal character, case-insensitive. -/
def rChrCI (c : Char) : RE Char := rSat (fun d => d.toLower = c.toLower)

/-- Literal string. -/
def rLit : List Char → RE Unit
  | [] => pure ()
  | c :: cs => do
    _ ← rChr c
    rLit cs

/-- Literal string, case-insensitive. -/
def rLitCI : List Char → RE Unit
  | [] => pure ()
  | c :: cs => do
    _ ← rChrCI c
    rLitCI cs

/-- Literal string from a String. -/
def rLitS (s : String) : RE Unit := rLit s.toList

/-- Case-insensitive literal string from a String. -/
def rLitCIS (s : String) : RE Unit := rLitCI s.toList

/-- Greedy star with explicit fuel: tries the longest repetition
first, exactly like a greedy quantifier backtracks. -/
def rManyG : Nat → RE α → RE (List α)
  | 0, _ => pure []
  | n + 1, p =>
    rOr
      (do
        let a ← p
        let as ← rManyG n p
        pure (a :: as))
      (pure [])

/-- Greedy star; the fuel is the remaining input length, enough for
any item that consumes at least one character. -/
def rMany (p : RE α) : RE (List α) := fun s => rManyG s.1.length p s

/-- Greedy plus. -/
def rMany1 (p : RE α) : RE (List α) := do
  let a ← p
  let as ← rMany p
  pure (a :: as)

/-- Lazy star with fuel: shortest repetition first. -/
def rManyLG : Nat → RE α → RE (List α)
  | 0, _ => pure []
  | n + 1, p =>
    rOr
      (pure [])
      (do
        let a ← p
        let as ← rManyLG n p
        pure (a :: as))

/-- Lazy star (the *? quantifier). -/
def rManyL (p : RE α) : RE (List α) := fun s => rManyLG s.1.length p s

/-- Exactly n repetitions. -/
def rExact : Nat → RE α → RE (List α)
  | 0, _ => pure []
  | n + 1, p => do
    let a ← p
    let as ← rExact n p
    pure (a :: as)

/-- At most n repetitions, greedy. -/
def rUpTo : Nat → RE α → RE (List α)
  | 0, _ => pure []
  | n + 1, p =>
    rOr
      (do
        let a ← p
        let as ← rUpTo n p
        pure (a :: as))
      (pure [])

/-- Counted repetition lo..hi, greedy. -/
def rRange (lo hi : Nat) (p : RE α) : RE (List α) := do
  let as ← rExact lo p
  let bs ← rUpTo (hi - lo) p
  pure (as ++ bs)

/-- Repetition of at least lo items, greedy. -/
def rAtLeast (lo : Nat) (p : RE α) : RE (List α) := do
  let as ← rExact lo p
  let bs ← rMany p
  pure (as ++ bs)

/-- Greedy option (the ? quantifier). -/
def rOpt (p : RE α) : RE (Option α) :=
  rOr
    (do
      let a ← p
      pure (some a))
    (pure none)

/-- Word boundary, zero width. -/
def rBound : RE Unit := fun s =>
  if boundaryAt s.2 s.1.head? then [((), s)] else []

/-- Caret anchor without MULTILINE: start of the input. -/
def rBOL : RE Unit := fun s =>
  match s.2 with
  | none => [((), s)]
  | some _ => []

/-- Dollar anchor without MULTILINE: end of input or just before a
final newline. -/
def rEOL : RE Unit := fun s =>
  match s.1 with
  | [] => [((), s)]
  | ['\n'] => [((), s)]
  | _ => []

/-- End-of-string anchor (backslash-Z). -/
def rEndS : RE Unit := fun s =>
  match s.1 with
  | [] => [((), s)]
  | _ => []

/-- Negative lookbehind on a character predicate. -/
def rNotPrev (f : Char → Bool) : RE Unit := fun s =>
  match s.2 with
  | some c => if f c then [] else [((), s)]
  | none => [((), s)]

/-- Negative lookahead on a character predicate. -/
def rNotNext (f : Char → Bool) : RE Unit := fun s =>
  match s.1 with
  | c :: _ => if f c then [] else [((), s)]
  | [] => [((), s)]

/-- Decimal digit. -/
def rDigit : RE Char := rSat Char.isDigit

/-- One or more digits (a backslash-d-plus group), returned as text. -/
def rDigits1 : RE (List Char) := rMany1 rDigit

/-- Whitespace character. -/
def rSpaceC : RE Char := rSat pySpace

/-- Zero or more whitespace characters. -/
def rSpaces0 : RE Unit := do
  _ ← rMany rSpaceC
  pure ()

/-- One or more whitespace characters. -/
def rSpaces1 : RE Unit := do
  _ ← rMany1 rSpaceC
  pure ()

/-- First match at the current position or to the right of it: the
re.search semantics.  The head of the parse list at the leftmost
matching position is the Python match. -/
def rSearchAux (p : RE α) : Option Char → List Char → Option α
  | prev, [] => ((p ([], prev)).head?).map Prod.fst
  | prev, c :: t =>
    match (p (c :: t, prev)).head? with
    | some x => some x.1
    | none => rSearchAux p (some c) t

/-- re.search on a character list. -/
def rSearch (p : RE α) (cs : List Char) : Option α := rSearchAux p none cs

/-- Truthiness of re.search. -/
def rTest (p : RE Unit) (cs : List Char) : Bool := (rSearch p cs).isSome

/-- All non-overlapping matches left to right: re.findall.  After a
match the scan resumes at its end (advancing one character after an
empty match, as Python does). -/
def rFindAllAux (p : RE α) : Nat → Option Char → List Char → List α
  | 0, _, _ => []
  | fuel + 1, prev, cs =>
    match (p (cs, prev)).head? with
    | some (a, (rest, prev')) =>
      if rest.length < cs.length then a :: rFindAllAux p fuel prev' rest
      else
        match cs with
        | [] => [a]
        | c :: t => a :: rFindAllAux p fuel (some c) t
    | none =>
      match cs with
      | [] => []
      | c :: t => rFindAllAux p fuel (some c) t

/-- re.findall on a character list. -/
def rFindAll (p : RE α) (cs : List Char) : List α :=
  rFindAllAux p (cs.length + 1) none cs

/-! Section: similarity_calculator.extract_experience_requirement

The six patterns, in source order.  Each returns the first captured
group of its first match. -/

/-- Alternation years or yrs, in pattern order. -/
def reqYearsTok : RE Unit := rOr (rLitS "years") (rLitS "yrs")

/-- Optional group: whitespace then the literal of. -/
def reqOptOf : RE (Option Unit) :=
  rOpt (do
    rSpaces0
    rLitS "of")

/-- Requirement pattern 1: digits, optional plus, spaces, years or
yrs, optional of, spaces, the literal experience. -/
def reqPat1 : RE Nat := do
  let ds ← rDigits1
  _ ← rOpt (rChr '+')
  rSpaces0
  reqYearsTok
  _ ← reqOptOf
  rSpaces0
  rLitS "experience"
  pure (digitsToNat ds)

/-- Requirement pattern 2: like pattern 1 but ending in the literal
work experience. -/
def reqPat2 : RE Nat := do
  let ds ← rDigits1
  _ ← rOpt (rChr '+')
  rSpaces0
  reqYearsTok
  _ ← reqOptOf
  rSpaces0
  rLitS "work experience"
  pure (digitsToNat ds)

/-- Requirement pattern 3: the literal experience, optional of or
with, then digits, optional plus, years or yrs. -/
def reqPat3 : RE Nat := do
  rLitS "experience"
  rSpaces0
  _ ← rOpt (rOr (rLitS "of") (rLitS "with"))
  rSpaces0
  let ds ← rDigits1
  _ ← rOpt (rChr '+')
  rSpaces0
  reqYearsTok
  pure (digitsToNat ds)

/-- Requirement pattern 4: the literal minimum, optional of, digits,
optional plus, years or yrs. -/
def reqPat4 : RE Nat := do
  rLitS "minimum"
  rSpaces0
  _ ← rOpt (rLitS "of")
  rSpaces0
  let ds ← rDigits1
  _ ← rOpt (rChr '+')
  rSpaces0
  reqYearsTok
  pure (digitsToNat ds)

/-- Requirement pattern 5: the literal at least, digits, optional
plus, years or yrs. -/
def reqPat5 : RE Nat := do
  rLitS "at least"
  rSpaces0
  let ds ← rDigits1
  _ ← rOpt (rChr '+')
  rSpaces0
  reqYearsTok
  pure (digitsToNat ds)

/-- Requirement pattern 6, the range pattern: digits, hyphen, digits,
years or yrs, optional of, the literal experience.  Captures both
bounds. -/
def reqPat6 : RE (Nat × Nat) := do
  let a ← rDigits1
  _ ← rChr '-'
  let b ← rDigits1
  rSpaces0
  reqYearsTok
  _ ← reqOptOf
  rSpaces0
  rLitS "experience"
  pure (digitsToNat a, digitsToNat b)

/-- Embedding of similarity_calculator.extract_experience_requirement:
lowercase the job text, try the six patterns in order, return the
first captured group of the first match of the first matching pattern
(for the range pattern, the lower bound of the first match); return 0
when nothing matches. -/
def extract_experience_requirement (jd : String) : Nat :=
  let t := (pyLower jd).toList
  match rSearch reqPat1 t with
  | some n => n
  | none =>
    match rSearch reqPat2 t with
    | some n => n
    | none =>
      match rSearch reqPat3 t with
      | some n => n
      | none =>
        match rSearch reqPat4 t with
        | some n => n
        | none =>
          match rSearch reqPat5 t with
          | some n => n
          | none =>
            match rSearch reqPat6 t with
            | some ab => ab.1
            | none => 0

/-! Section: resume_parser.extract_name -/

/-- Optional separator of the phone-like pattern: one optional
character from the class hyphen, dot, whitespace. -/
def sepOpt : RE Unit := do
  _ ← rOpt (rSat (fun c => c = '-' || c = '.' || pySpace c))
  pure ()

/-- The phone-like pattern of extract_name: three digits, optional
separator, three digits, optional separator, four digits. -/
def phoneLikePat : RE Unit := do
  _ ← rExact 3 rDigit
  sepOpt
  _ ← rExact 3 rDigit
  sepOpt
  _ ← rExact 4 rDigit
  pure ()

/-- Python str.split on a single separator character (empty pieces
kept). -/
def splitOnChar (sep : Char) : List Char → List (List Char)
  | [] => [[]]
  | c :: t =>
    let r := splitOnChar sep t
    if c = sep then [] :: r
    else
      match r with
      | [] => [[c]]
      | h :: t2 => (c :: h) :: t2

/-- Python str.split on one character, at the string level. -/
def pySplit (sep : Char) (s : String) : List String :=
  (splitOnChar sep s.toList).map strOf

/-- Loop body of extract_name: first stripped line that is non-empty,
under 50 characters, without an at sign and without a phone-like digit
group; Unknown when the candidate lines run out. -/
def nameScan : List String → String
  | [] => "Unknown"
  | l :: ls =>
    let line := pyStrip l
    if line ≠ "" && line.length < 50 then
      if !line.toList.contains '@' && !rTest phoneLikePat line.toList then line
      else nameScan ls
    else nameScan ls

/-- Embedding of resume_parser.extract_name: split on newlines, scan
the first 10 lines. -/
def extract_name (t : String) : String :=
  nameScan ((pySplit '\n' t).take 10)

/-- Acceptable name line, as a predicate (used by the reformulations
below). -/
def nameLineOK (line : String) : Bool :=
  line ≠ "" && line.length < 50 && !line.toList.contains '@' &&
    !rTest phoneLikePat line.toList

/-- The name heuristic as the specification words it: scan the first
10 NON-EMPTY lines and return the first qualifying one. -/
def extract_name_specClaim (t : String) : String :=
  let lines := ((((pySplit '\n' t)).map pyStrip).filter (fun l => l ≠ "")).take 10
  (lines.filter (fun l => l.length < 50 && !l.toList.contains '@' &&
    !rTest phoneLikePat l.toList)).headD "Unknown"

/-- The name heuristic as the code actually behaves, reformulated:
among the first 10 LINES (empty ones included), after stripping,
return the first qualifying non-empty line. -/
def extract_name_amended (t : String) : String :=
  ((((pySplit '\n' t)).take 10).map pyStrip).filter nameLineOK |>.headD "Unknown"

/-! Section: resume_parser.extract_skills -/

/-- The fixed skill vocabulary, verbatim from the source and in source
order. -/
def commonSkills : List String := [
  "Python", "Java", "JavaScript", "C++", "C#", "PHP", "Ruby", "Swift", "Go", "Kotlin", "R",
  "TypeScript", "Scala", "Perl", "Rust", "MATLAB", "Groovy", "Objective-C", "Bash", "PowerShell",
  "HTML", "CSS", "React", "Angular", "Vue.js", "Node.js", "Express", "Django", "Flask", "Laravel",
  "Ruby on Rails", "ASP.NET", "Spring", "jQuery", "Bootstrap", "Sass", "LESS", "WordPress", "Redux",
  "Android", "iOS", "React Native", "Flutter", "Xamarin", "Ionic", "Swift UI", "Kotlin Multiplatform",
  "SQL", "MySQL", "PostgreSQL", "MongoDB", "SQLite", "Oracle", "MS SQL Server", "Redis", "MariaDB",
  "NoSQL", "Firebase", "Cassandra", "DynamoDB", "Elasticsearch", "Neo4j",
  "AWS", "Azure", "Google Cloud", "Docker", "Kubernetes", "Jenkins", "Git", "GitHub", "Bitbucket",
  "CI/CD", "Terraform", "Ansible", "Chef", "Puppet", "Vagrant", "Prometheus", "Grafana", "ELK Stack",
  "TensorFlow", "PyTorch", "scikit-learn", "Pandas", "NumPy", "SciPy", "Keras", "OpenCV", "NLTK",
  "spaCy", "Machine Learning", "Deep Learning", "AI", "Data Analysis", "Data Visualization",
  "Big Data", "Hadoop", "Spark", "NLP", "Computer Vision", "Reinforcement Learning",
  "OOP", "Design Patterns", "Agile", "Scrum", "Kanban", "UML", "Software Architecture", "Microservices",
  "RESTful API", "GraphQL", "SOAP", "RPC", "Unit Testing", "Integration Testing", "TDD", "BDD",
  "Linux", "Unix", "Windows", "macOS", "Networking", "Security", "Blockchain", "Cryptography",
  "AR/VR", "IoT", "Game Development", "Unity", "Unreal Engine", "Embedded Systems", "Robotics",
  "SAP", "SAP BASIS", "BASIS", "SAP HANA", "HANA", "SAP ABAP", "ABAP", "SAP ERP", "ERP",
  "SAP R/3", "SAP S/4HANA", "S/4HANA", "SAP MM", "MM", "SAP SD", "SD", "SAP PP", "PP",
  "SAP FI", "FI", "SAP CO", "CO", "SAP HCM", "HCM", "SAP BW", "BW", "SAP BI", "BI",
  "SAP CRM", "CRM", "SAP SRM", "SRM", "SAP SCM", "SCM", "SAP MDM", "MDM", "SAP PLM", "PLM",
  "SAP Solution Manager", "Solution Manager", "Solman", "SAP Fiori", "Fiori", "SAP UI5", "UI5",
  "SAP NetWeaver", "NetWeaver", "SAP BODS", "BODS", "SAP PI", "PI", "SAP PO", "PO",
  "SAP BPC", "BPC", "SAP GRC", "GRC", "SAP ADS", "ADS", "SAP SLT", "SLT", "SAP FICO", "FICO",
  "SAPUI5", "SAP GUI", "SAP Portal", "SAP BTP", "BTP", "SAP CAR", "CAR",
  "SAP Landscape", "SAP Authorizations", "SAP Security", "SAP Administration", "SAP Monitoring",
  "SAP System Copy", "SAP Migration", "SAP Upgrade", "SAP Patches", "SAP Troubleshooting",
  "SAP Performance", "SAP Tuning", "SAP Transport", "SAP Backup", "SAP Recovery"]

/-- First pass of extract_skills: each vocabulary entry found in the
text as a whole word (case-insensitive), kept in vocabulary order. -/
def vocabScan (t : String) : List String :=
  commonSkills.foldl (fun acc sk => if hasWholeWordCI sk t then acc ++ [sk] else acc) []

/-- Header alternation of the skill-section pattern. -/
def sectionHead : RE Unit :=
  rAltList [rLitS "skills", rLitS "expertise", rLitS "proficiency", rLitS "knowledge",
    do
      rLitS "competenc"
      rOr (rLitS "y") (rLitS "ies")]

/-- The skill-section pattern: a header word, one or more colon or
whitespace characters, a lazy DOTALL body captured up to a blank line
or the end of the text. -/
def sectionPat : RE (List Char) := do
  sectionHead
  _ ← rMany1 (rSat (fun c => c = ':' || pySpace c))
  let body ← rManyL (rSat (fun _ => true))
  _ ← rOr (rLitS "\n\n") rEndS
  pure body

/-- Characters the fragment split uses: comma, semicolon, bullet,
pipe, newline. -/
def splitFragChar (c : Char) : Bool :=
  c = ',' || c = ';' || c = '•' || c = '|' || c = '\n'

/-- re.split on the fragment separator class. -/
def splitFrags : List Char → List (List Char)
  | [] => [[]]
  | c :: t =>
    let r := splitFrags t
    if splitFragChar c then [] :: r
    else
      match r with
      | [] => [[c]]
      | h :: t2 => (c :: h) :: t2

/-- Inner loop of the low-yield fallback of extract_skills: a stripped
fragment of reasonable length is tested against every vocabulary entry
by lowercase substring, appending entries not already present. -/
def refineStep (found : List String) (frag : List Char) : List String :=
  let fr := pyStripL frag
  if 2 < fr.length && fr.length < 50 then
    commonSkills.foldl
      (fun acc sk =>
        if containsSeq (pyLower sk).toList fr && !acc.contains sk then acc ++ [sk] else acc)
      found
  else found

/-- Embedding of resume_parser.extract_skills: whole-word vocabulary
scan, the SAP BASIS composition rule, then the low-yield fallback over
skill-section fragments when fewer than three skills were found. -/
def extract_skills (t : String) : List String :=
  let found := vocabScan t
  let found :=
    if found.contains "BASIS" && found.contains "SAP" && !found.contains "SAP BASIS" then
      found ++ ["SAP BASIS"]
    else found
  if found.length < 3 then
    (rFindAll sectionPat (pyLower t).toList).foldl
      (fun acc sec => (splitFrags sec).foldl refineStep acc) found
  else found

/-! Section: resume_parser.extract_experience_years -/

/-- Alternation years, yrs or year, in pattern order. -/
def yrsTok : RE Unit := rAltList [rLitS "years", rLitS "yrs", rLitS "year"]

/-- Optional literal plus sign. -/
def optPlus : RE Unit := do
  _ ← rOpt (rChr '+')
  pure ()

/-- Candidate pattern 1: digits, optional plus, years token, optional
of, an optional qualifier word, the literal experience. -/
def yearsPat1 : RE Nat := do
  let ds ← rDigits1
  optPlus
  rSpaces0
  yrsTok
  _ ← rOpt (do
    rSpaces0
    rLitS "of")
  rSpaces0
  _ ← rOpt (rAltList [rLitS "total", rLitS "overall", rLitS "professional",
    rLitS "relevant", rLitS "industry"])
  rSpaces0
  rLitS "experience"
  pure (digitsToNat ds)

/-- Candidate pattern 2: a qualifier word, optional of, digits,
optional plus, years token, optional experience or in. -/
def yearsPat2 : RE Nat := do
  rAltList [rLitS "total", rLitS "overall", rLitS "professional"]
  rSpaces0
  _ ← rOpt (rLitS "of")
  rSpaces0
  let ds ← rDigits1
  optPlus
  rSpaces0
  yrsTok
  rSpaces0
  _ ← rOpt (rOr (rLitS "experience") (rLitS "in"))
  pure (digitsToNat ds)

/-- Candidate pattern 3: worked, working or experience, optional for
or of, digits, optional plus, years token. -/
def yearsPat3 : RE Nat := do
  rAltList [rLitS "worked", rLitS "working", rLitS "experience"]
  rSpaces0
  _ ← rOpt (rOr (rLitS "for") (rLitS "of"))
  rSpaces0
  let ds ← rDigits1
  optPlus
  rSpaces0
  yrsTok
  pure (digitsToNat ds)

/-- Candidate pattern 4: digits, optional plus, years token, then in,
of experience in, or experience with. -/
def yearsPat4 : RE Nat := do
  let ds ← rDigits1
  optPlus
  rSpaces0
  yrsTok
  rSpaces0
  rAltList [rLitS "in", rLitS "of experience in", rLitS "experience with"]
  pure (digitsToNat ds)

/-- Candidate pattern 5: sap, it or technical, then experience or
professional, optional of, digits, optional plus, years token. -/
def yearsPat5 : RE Nat := do
  rAltList [rLitS "sap", rLitS "it", rLitS "technical"]
  rSpaces0
  rOr (rLitS "experience") (rLitS "professional")
  _ ← rOpt (do
    rSpaces0
    rLitS "of")
  rSpaces0
  let ds ← rDigits1
  optPlus
  rSpaces0
  yrsTok
  pure (digitsToNat ds)

/-- Candidate pattern 6: digits, optional plus, years token, optional
of, a domain word, the literal experience. -/
def yearsPat6 : RE Nat := do
  let ds ← rDigits1
  optPlus
  rSpaces0
  yrsTok
  rSpaces0
  _ ← rOpt (rLitS "of")
  rSpaces0
  rAltList [rLitS "sap", rLitS "basis", rLitS "it", rLitS "technical"]
  rSpaces0
  rLitS "experience"
  pure (digitsToNat ds)

/-- Candidate pattern 7: experience with or in sap or basis, optional
for, digits, optional plus, years token. -/
def yearsPat7 : RE Nat := do
  rLitS "experience"
  rSpaces0
  rOr (rLitS "with") (rLitS "in")
  rSpaces0
  rOr (rLitS "sap") (rLitS "basis")
  _ ← rOpt (do
    rSpaces0
    rLitS "for")
  rSpaces0
  let ds ← rDigits1
  optPlus
  rSpaces0
  yrsTok
  pure (digitsToNat ds)

/-- Candidate pattern 8: digits, a mandatory plus, years token. -/
def yearsPat8 : RE Nat := do
  let ds ← rDigits1
  _ ← rChr '+'
  rSpaces0
  yrsTok
  pure (digitsToNat ds)

/-- Candidate pattern 9: professional with, consultant with or
specialist with, digits, optional plus, years token. -/
def yearsPat9 : RE Nat := do
  rAltList [rLitS "professional with", rLitS "consultant with", rLitS "specialist with"]
  rSpaces0
  let ds ← rDigits1
  optPlus
  rSpaces0
  yrsTok
  pure (digitsToNat ds)

/-- The nine candidate-experience patterns in source order. -/
def expYearPatterns : List (RE Nat) := [yearsPat1, yearsPat2, yearsPat3, yearsPat4,
  yearsPat5, yearsPat6, yearsPat7, yearsPat8, yearsPat9]

/-- Every integer collected across all matches of all candidate
patterns on the lowercased text, in pattern order (the all_years list
of the source). -/
def allYearsOf (t : String) : List Nat :=
  let cs := (pyLower t).toList
  expYearPatterns.foldl (fun acc p => acc ++ rFindAll p cs) []

/-- Python max on a list of naturals (only used on non-empty lists,
where the extra 0 seed is harmless). -/
def pyMaxList (l : List Nat) : Nat := l.foldl Nat.max 0

/-! Section: resume_parser.estimate_experience_from_employment -/

/-- Long-tenure pattern 1: digits, years token, at or with, a word. -/
def tenurePat1 : RE (List Char) := do
  let ds ← rDigits1
  rSpaces0
  yrsTok
  rSpaces0
  rOr (rLitS "at") (rLitS "with")
  rSpaces0
  _ ← rMany1 (rSat isWordChar)
  pure ds

/-- Long-tenure pattern 2: since or from, four digits, then at, with
or to present. -/
def tenurePat2 : RE (List Char) := do
  rOr (rLitS "since") (rLitS "from")
  rSpaces0
  let ds ← rExact 4 rDigit
  rSpaces0
  rAltList [rLitS "at", rLitS "with", rLitS "to present"]
  pure ds

/-- Long-tenure pattern 3: joined, a word, in, four digits. -/
def tenurePat3 : RE (List Char) := do
  rLitS "joined"
  rSpaces0
  _ ← rMany1 (rSat isWordChar)
  rSpaces0
  rLitS "in"
  rSpaces0
  let ds ← rExact 4 rDigit
  pure ds

/-- Per-pattern loop over long-tenure matches: a group of at most four
digits is either a calendar year (value over 1900, converted to 2025
minus the year and returned when strictly between 0 and 50) or a
direct year count (returned as is); anything else falls through to the
next match. -/
def tenureScan : List (List Char) → Option Nat
  | [] => none
  | m :: rest =>
    if m.length ≤ 4 then
      if digitsToNat m > 1900 then
        if 0 < 2025 - digitsToNat m && 2025 - digitsToNat m < 50 then
          some (2025 - digitsToNat m)
        else tenureScan rest
      else some (digitsToNat m)
    else tenureScan rest

/-- Separator of a date range: spaces, a hyphen or the word to or an
en or em dash, spaces. -/
def rangeSep : RE Unit := do
  rSpaces0
  rAltList [
    (do
      _ ← rChr '-'
      pure ()),
    rLitS "to",
    (do
      _ ← rChr '–'
      pure ()),
    (do
      _ ← rChr '—'
      pure ())]
  rSpaces0

/-- Literal capture helper: matches the literal and returns its
characters. -/
def rLitCap (s : String) : RE (List Char) := do
  rLit s.toList
  pure s.toList

/-- Boundary-wrapped literal capture (a whole word inside a group
alternation). -/
def rWordCap (s : String) : RE (List Char) := do
  rBound
  rLit s.toList
  rBound
  pure s.toList

/-- End alternative of a year range: four digits, or the whole words
present, current, now. -/
def endAltNum : RE (List Char) :=
  rAltList [rExact 4 rDigit, rWordCap "present", rWordCap "current", rWordCap "now"]

/-- Date pattern 1: four digits, range separator, end alternative. -/
def datePat1 : RE (List Char × List Char) := do
  let a ← rExact 4 rDigit
  rangeSep
  let b ← endAltNum
  pure (a, b)

/-- A month-over-year date of the form one or two digits, slash, four
digits, captured as text. -/
def mmYYYY : RE (List Char) := do
  let a ← rRange 1 2 rDigit
  _ ← rChr '/'
  let b ← rExact 4 rDigit
  pure (a ++ '/' :: b)

/-- Date pattern 2: slashed date, range separator, slashed date or
present, current, now. -/
def datePat2 : RE (List Char × List Char) := do
  let a ← mmYYYY
  rangeSep
  let b ← rAltList [mmYYYY, rWordCap "present", rWordCap "current", rWordCap "now"]
  pure (a, b)

/-- A month-name date: word boundary, a month abbreviation, optional
trailing letters, optional dot, spaces, four digits, captured as
text. -/
def monthDate : RE (List Char) := do
  rBound
  let m ← rAltList (["jan", "feb", "mar", "apr", "may", "jun", "jul", "aug",
    "sep", "oct", "nov", "dec"].map rLitCap)
  let ex ← rMany (rSat (fun c => 'a' ≤ c && c ≤ 'z'))
  let dot ← rOpt (rChr '.')
  let sp ← rMany1 rSpaceC
  let y ← rExact 4 rDigit
  pure (m ++ ex ++ (match dot with | some c => [c] | none => []) ++ sp ++ y)

/-- Date pattern 3: month-name date, range separator, month-name date
or present, current, now. -/
def datePat3 : RE (List Char × List Char) := do
  let a ← monthDate
  rangeSep
  let b ← rAltList [monthDate, rWordCap "present", rWordCap "current", rWordCap "now"]
  pure (a, b)

/-- Date pattern 4: project or contract, a lazy gap on the same line,
four digits, range separator, end alternative. -/
def datePat4 : RE (List Char × List Char) := do
  rOr (rLitS "project") (rLitS "contract")
  _ ← rManyL (rSat (fun c => c ≠ '\n'))
  let a ← rExact 4 rDigit
  rangeSep
  let b ← endAltNum
  pure (a, b)

/-- First run of four consecutive digits anywhere in the text, as a
number. -/
def searchFourDigits (cs : List Char) : Option Nat :=
  (rSearch (rExact 4 rDigit) cs).map digitsToNat

/-- Python str.split on the slash character. -/
def splitOnSlash : List Char → List (List Char)
  | [] => [[]]
  | c :: t =>
    let r := splitOnSlash t
    if c = '/' then [] :: r
    else
      match r with
      | [] => [[c]]
      | h :: t2 => (c :: h) :: t2

/-- Python int applied to a possibly non-numeric string, with the
ValueError swallowed (returns none). -/
def parseIntOpt (cs : List Char) : Option Nat :=
  if cs ≠ [] && cs.all Char.isDigit then some (digitsToNat cs) else none

/-- Start year of a captured range endpoint: a four-digit run if one
occurs, else the part after the last slash when the text is slashed. -/
def startYearOf (s : List Char) : Option Nat :=
  match searchFourDigits s with
  | some y => some y
  | none =>
    if s.contains '/' && (splitOnSlash s).length > 1 then
      parseIntOpt ((splitOnSlash s).getLastD [])
    else none

/-- End year of a captured range endpoint: like the start year, with a
final fallback mapping present, current, now, till date, to date to
the fixed current year 2025. -/
def endYearOf (e : List Char) : Option Nat :=
  match searchFourDigits e with
  | some y => some y
  | none =>
    if e.contains '/' && (splitOnSlash e).length > 1 then
      parseIntOpt ((splitOnSlash e).getLastD [])
    else if ["present", "current", "now", "till date", "to date"].any
        (fun w => containsSeq w.toList (pyLowerL e)) then
      some 2025
    else none

/-- Contribution of one date-range match to the employment total: end
minus start when both years resolve, are truthy, are ordered, and the
difference passes the sanity bound below 50; otherwise nothing. -/
def rangeYears (se : List Char × List Char) : Nat :=
  match startYearOf se.1, endYearOf se.2 with
  | some sy, some ey =>
    if sy ≠ 0 && ey ≠ 0 && sy < ey then
      if ey - sy > 0 && ey - sy < 50 then ey - sy else 0
    else 0
  | _, _ => 0

/-- Embedding of resume_parser.estimate_experience_from_employment:
long-tenure phrases first (each pattern scanned in full before the
next), then the summed date ranges capped at 30, defaulting to 5. -/
def estimate_experience_from_employment (t : String) : Nat :=
  let low := (pyLower t).toList
  match tenureScan (rFindAll tenurePat1 low) with
  | some y => y
  | none =>
    match tenureScan (rFindAll tenurePat2 low) with
    | some y => y
    | none =>
      match tenureScan (rFindAll tenurePat3 low) with
      | some y => y
      | none =>
        let ms := rFindAll datePat1 low ++ rFindAll datePat2 low ++
          rFindAll datePat3 low ++ rFindAll datePat4 low
        let total := ms.foldl (fun acc m => acc + rangeYears m) 0
        if total > 30 then 30
        else if total > 0 then total
        else 5

/-- Embedding of resume_parser.extract_experience_years: the maximum
over every collected pattern match; otherwise employment-history
inference; otherwise term-based defaults 10, 5 or 1. -/
def extract_experience_years (t : String) : Nat :=
  let lowS := pyLower t
  let ys := allYearsOf t
  if ys ≠ [] then pyMaxList ys
  else
    let est := estimate_experience_from_employment t
    if est > 0 then est
    else if ["senior consultant", "principal consultant", "lead consultant",
        "senior basis", "chief", "head of", "director"].any
        (fun w => substrContains lowS w) then 10
    else if ["sap", "basis", "hana", "abap", "netweaver", "fiori"].any
        (fun w => substrContains lowS w) then 5
    else 1

/-- Embedding of resume_parser.determine_seniority_level: explicit
title keywords in fixed priority order, then thresholds on the
extracted experience years. -/
def determine_seniority_level (t : String) : String :=
  let low := pyLower t
  if hasAnyWholeWord ["cto", "cio", "ceo", "chief", "vp", "vice president"] low then "executive"
  else if hasWholeWord "director" low then "director"
  else if hasAnyWholeWord ["senior", "sr", "lead", "principal"] low then "senior"
  else if hasWholeWord "manager" low then "manager"
  else if hasAnyWholeWord ["mid", "intermediate"] low then "mid"
  else if hasAnyWholeWord ["junior", "jr"] low then "junior"
  else if hasAnyWholeWord ["trainee", "intern", "graduate"] low then "entry"
  else
    let years := extract_experience_years t
    if years ≥ 10 then "senior"
    else if years ≥ 7 then "lead"
    else if years ≥ 5 then "mid"
    else if years ≥ 2 then "junior"
    else "entry"

/-! Section: resume_parser.extract_email -/

/-- Character class of the local part of an email address. -/
def emailLocalChar (c : Char) : Bool :=
  c.isAlpha || c.isDigit || c = '.' || c = '_' || c = '%' || c = '+' || c = '-'

/-- Character class of the domain part. -/
def emailDomainChar (c : Char) : Bool :=
  c.isAlpha || c.isDigit || c = '.' || c = '-'

/-- Character class of the top-level-domain part: as written in the
source the class also contains a literal pipe. -/
def emailTldChar (c : Char) : Bool := c.isAlpha || c = '|'

/-- The common email shape: local part, at sign, domain, dot, at least
two tld characters; captured as text. -/
def emailCore : RE (List Char) := do
  let a ← rMany1 (rSat emailLocalChar)
  _ ← rChr '@'
  let b ← rMany1 (rSat emailDomainChar)
  _ ← rChr '.'
  let ct ← rAtLeast 2 (rSat emailTldChar)
  pure (a ++ '@' :: (b ++ '.' :: ct))

/-- Email pattern 1: the email shape in word boundaries; the whole
match is the result since the pattern has no group. -/
def emailPat1 : RE (List Char) := do
  rBound
  let e ← emailCore
  rBound
  pure e

/-- Email pattern 2: a mailto prefix, then the captured shape. -/
def emailPat2 : RE (List Char) := do
  rLitCIS "mailto:"
  emailCore

/-- Label alternation of email pattern 3: E-mail or Email, Mail,
Electronic Mail, Contact, Email Address, in pattern order. -/
def emailLabel3 : RE Unit :=
  rAltList [
    (do
      _ ← rChrCI 'E'
      _ ← rOpt (rChr '-')
      rLitCIS "mail"),
    rLitCIS "Mail", rLitCIS "Electronic Mail", rLitCIS "Contact", rLitCIS "Email Address"]

/-- Connector of email pattern 3: any run of whitespace or colons, or
whitespace then the word at then whitespace. -/
def emailConn3 : RE Unit :=
  rOr
    (do
      _ ← rMany (rSat (fun c => pySpace c || c = ':'))
      pure ())
    (do
      rSpaces0
      rLitCIS "at"
      rSpaces1)

/-- Email pattern 3: label, connector, captured shape. -/
def emailPat3 : RE (List Char) := do
  emailLabel3
  emailConn3
  emailCore

/-- Email pattern 4: the shape enclosed in a bracket or parenthesis
pair. -/
def emailPat4 : RE (List Char) := do
  _ ← rSat (fun c => c = '[' || c = '(')
  let e ← emailCore
  _ ← rSat (fun c => c = ']' || c = ')')
  pure e

/-- Email pattern 5: loosely bounded shape with a 1 to 64 character
local part, preceded by whitespace, start of input or an opening
parenthesis and followed by whitespace, end of input or a closing
parenthesis. -/
def emailPat5 : RE (List Char) := do
  rAltList [
    (do
      _ ← rSpaceC
      pure ()),
    rBOL,
    (do
      _ ← rChr '('
      pure ())]
  let a ← rRange 1 64 (rSat emailLocalChar)
  _ ← rChr '@'
  let b ← rMany1 (rSat emailDomainChar)
  _ ← rChr '.'
  let ct ← rAtLeast 2 (rSat emailTldChar)
  rAltList [
    (do
      _ ← rSpaceC
      pure ()),
    rEOL,
    (do
      _ ← rChr ')'
      pure ())]
  pure (a ++ '@' :: (b ++ '.' :: ct))

/-- Email pattern 6: one of the labels Contact, Email, E-mail, Mail,
Communication, then whitespace, colons or hyphens, then the captured
shape. -/
def emailPat6 : RE (List Char) := do
  rAltList [rLitCIS "Contact", rLitCIS "Email", rLitCIS "E-mail", rLitCIS "Mail",
    rLitCIS "Communication"]
  _ ← rMany (rSat (fun c => pySpace c || c = ':' || c = '-'))
  emailCore

/-- Part of the address between the first and second at sign (Python
split on the at sign, element one). -/
def afterFirstAt (e : List Char) : List Char :=
  ((e.dropWhile (fun c => c ≠ '@')).drop 1).takeWhile (fun c => c ≠ '@')

/-- Quick validation of a candidate email: contains an at sign, a dot
after it, and is longer than five characters. -/
def emailValid (e : List Char) : Bool :=
  e.contains '@' && (afterFirstAt e).contains '.' && e.length > 5

/-- The six main email patterns in source order. -/
def emailMainPats : List (RE (List Char)) :=
  [emailPat1, emailPat2, emailPat3, emailPat4, emailPat5, emailPat6]

/-- Main email loop: first match of each pattern in turn; an invalid
first match moves on to the next pattern. -/
def emailTryMain : List (RE (List Char)) → List Char → Option (List Char)
  | [], _ => none
  | p :: ps, cs =>
    match rSearch p cs with
    | some e => if emailValid e then some e else emailTryMain ps cs
    | none => emailTryMain ps cs

/-- Tail of the obfuscated email patterns: user, at or at sign,
domain, dot or dot sign, tld, all separated by whitespace. -/
def obfTail : RE (List Char × List Char × List Char) := do
  let u ← rMany1 (rSat emailLocalChar)
  rSpaces1
  rOr (rLitS "at")
    (do
      _ ← rChr '@'
      pure ())
  rSpaces1
  let d ← rMany1 (rSat emailDomainChar)
  rSpaces1
  rOr (rLitS "dot")
    (do
      _ ← rChr '.'
      pure ())
  rSpaces1
  let tl ← rAtLeast 2 (rSat Char.isAlpha)
  pure (u, d, tl)

/-- Obfuscated pattern 1: an email label, a run of colons, the word at
or whitespace, then the obfuscated tail. -/
def obfPat1 : RE (List Char × List Char × List Char) := do
  rAltList [rLitS "email", rLitS "e-mail", rLitS "contact", rLitS "mail"]
  _ ← rMany1 (rAltList [
    (do
      _ ← rChr ':'
      pure ()),
    rLitS "at",
    (do
      _ ← rSpaceC
      pure ())])
  obfTail

/-- Obfuscated pattern 2: the bare obfuscated tail. -/
def obfPat2 : RE (List Char × List Char × List Char) := obfTail

/-- Embedding of resume_parser.extract_email: the six prioritized
patterns with validation, then the two de-obfuscation patterns on the
lowercased text, else the empty string. -/
def extract_email (t : String) : String :=
  let cs := t.toList
  match emailTryMain emailMainPats cs with
  | some e => strOf e
  | none =>
    let low := pyLowerL cs
    match rSearch obfPat1 low with
    | some udt => strOf (udt.1 ++ '@' :: (udt.2.1 ++ '.' :: udt.2.2))
    | none =>
      match rSearch obfPat2 low with
      | some udt => strOf (udt.1 ++ '@' :: (udt.2.1 ++ '.' :: udt.2.2))
      | none => ""

/-! Section: resume_parser.extract_phone -/

/-- Character class of a loose phone body: digits, whitespace,
parentheses, dot, hyphen. -/
def phChar (c : Char) : Bool :=
  c.isDigit || pySpace c || c = '(' || c = ')' || c = '.' || c = '-'

/-- Separator class hyphen, dot, whitespace. -/
def phSep (c : Char) : Bool := c = '-' || c = '.' || pySpace c

/-- Label connector class dot, colon, whitespace, hyphen. -/
def pcSep (c : Char) : Bool := c = '.' || c = ':' || pySpace c || c = '-'

/-- Optional character as a text fragment. -/
def optL : Option Char → List Char
  | some c => [c]
  | none => []

/-- Phone label alternation including Call. -/
def phoneLabelFull : RE Unit :=
  rAltList [rLitCIS "Tel", rLitCIS "Telephone", rLitCIS "Phone", rLitCIS "Mobile",
    rLitCIS "Cell", rLitCIS "Contact", rLitCIS "Call"]

/-- Phone label alternation without Call. -/
def phoneLabelNoCall : RE Unit :=
  rAltList [rLitCIS "Tel", rLitCIS "Telephone", rLitCIS "Phone", rLitCIS "Mobile",
    rLitCIS "Cell", rLitCIS "Contact"]

/-- Connector after a phone label: one or more of a separator
character or whitespace-at-whitespace. -/
def phoneConn : RE Unit := do
  _ ← rMany1 (rOr
    (do
      _ ← rSat pcSep
      pure ())
    (do
      _ ← rSpaceC
      rLitCIS "at"
      _ ← rSpaceC
      pure ()))
  pure ()

/-- Phone pattern 1: label, connector, spaces, then a captured
optional plus, a digit, and at least seven loose body characters. -/
def phonePat1 : RE (List Char) := do
  phoneLabelFull
  phoneConn
  rSpaces0
  let pl ← rOpt (rChr '+')
  let d ← rDigit
  let tl ← rAtLeast 7 (rSat phChar)
  pure (optL pl ++ d :: tl)

/-- Phone pattern 2: label, connector, spaces, then a captured
parenthesized area code and 3-3-4 digit groups with optional
separators. -/
def phonePat2 : RE (List Char) := do
  phoneLabelFull
  phoneConn
  rSpaces0
  _ ← rChr '('
  let a ← rExact 3 rDigit
  _ ← rChr ')'
  let s1 ← rOpt (rSat phSep)
  let b ← rExact 3 rDigit
  let s2 ← rOpt (rSat phSep)
  let c4 ← rExact 4 rDigit
  pure ('(' :: (a ++ ')' :: (optL s1 ++ b ++ optL s2 ++ c4)))

/-- Phone pattern 3: label without Call, one or more connector
characters, spaces, then a captured 3-3-4 group. -/
def phonePat3 : RE (List Char) := do
  phoneLabelNoCall
  _ ← rMany1 (rSat pcSep)
  rSpaces0
  let a ← rExact 3 rDigit
  let s1 ← rOpt (rSat phSep)
  let b ← rExact 3 rDigit
  let s2 ← rOpt (rSat phSep)
  let c4 ← rExact 4 rDigit
  pure (a ++ optL s1 ++ b ++ optL s2 ++ c4)

/-- Phone pattern 4: international number with country code, in word
boundaries. -/
def phonePat4 : RE (List Char) := do
  rBound
  _ ← rChr '+'
  let a ← rRange 1 3 rDigit
  let s1 ← rOpt (rSat phSep)
  let b ← rRange 1 4 rDigit
  let s2 ← rOpt (rSat phSep)
  let c2 ← rRange 1 4 rDigit
  let s3 ← rOpt (rSat phSep)
  let d2 ← rRange 1 4 rDigit
  rBound
  pure ('+' :: (a ++ optL s1 ++ b ++ optL s2 ++ c2 ++ optL s3 ++ d2))

/-- Phone pattern 5: international number with a parenthesized group,
in word boundaries. -/
def phonePat5 : RE (List Char) := do
  rBound
  _ ← rChr '+'
  let a ← rRange 1 3 rDigit
  let s1 ← rOpt (rSat phSep)
  _ ← rChr '('
  let b ← rRange 1 4 rDigit
  _ ← rChr ')'
  let s2 ← rOpt (rSat phSep)
  let c2 ← rRange 1 4 rDigit
  let s3 ← rOpt (rSat phSep)
  let d2 ← rRange 1 4 rDigit
  rBound
  pure ('+' :: (a ++ optL s1 ++ '(' :: (b ++ ')' :: (optL s2 ++ c2 ++ optL s3 ++ d2))))

/-- Phone pattern 6: bare 3-3-4 group with optional separators, in
word boundaries. -/
def phonePat6 : RE (List Char) := do
  rBound
  let a ← rExact 3 rDigit
  let s1 ← rOpt (rSat phSep)
  let b ← rExact 3 rDigit
  let s2 ← rOpt (rSat phSep)
  let c4 ← rExact 4 rDigit
  rBound
  pure (a ++ optL s1 ++ b ++ optL s2 ++ c4)

/-- Phone pattern 7: parenthesized area code then 3-4 groups, in word
boundaries. -/
def phonePat7 : RE (List Char) := do
  rBound
  _ ← rChr '('
  let a ← rExact 3 rDigit
  _ ← rChr ')'
  let s1 ← rOpt (rSat phSep)
  let b ← rExact 3 rDigit
  let s2 ← rOpt (rSat phSep)
  let c4 ← rExact 4 rDigit
  rBound
  pure ('(' :: (a ++ ')' :: (optL s1 ++ b ++ optL s2 ++ c4)))

/-- Phone pattern 8: 3-3-4 group with mandatory separators. -/
def phonePat8 : RE (List Char) := do
  rBound
  let a ← rExact 3 rDigit
  let s1 ← rSat phSep
  let b ← rExact 3 rDigit
  let s2 ← rSat phSep
  let c4 ← rExact 4 rDigit
  rBound
  pure (a ++ s1 :: (b ++ s2 :: c4))

/-- Phone pattern 9: 3-3-4 group with literal dots. -/
def phonePat9 : RE (List Char) := do
  rBound
  let a ← rExact 3 rDigit
  _ ← rChr '.'
  let b ← rExact 3 rDigit
  _ ← rChr '.'
  let c4 ← rExact 4 rDigit
  rBound
  pure (a ++ '.' :: (b ++ '.' :: c4))

/-- Phone pattern 10: 4-3-3 group with mandatory separators. -/
def phonePat10 : RE (List Char) := do
  rBound
  let a ← rExact 4 rDigit
  let s1 ← rSat phSep
  let b ← rExact 3 rDigit
  let s2 ← rSat phSep
  let c3 ← rExact 3 rDigit
  rBound
  pure (a ++ s1 :: (b ++ s2 :: c3))

/-- Phone pattern 11: exactly ten digits not adjacent to digits
(lookaround). -/
def phonePat11 : RE (List Char) := do
  rNotPrev Char.isDigit
  let ds ← rExact 10 rDigit
  rNotNext Char.isDigit
  pure ds

/-- All eleven phone patterns in source order. -/
def phonePatterns : List (RE (List Char)) :=
  [phonePat1, phonePat2, phonePat3, phonePat4, phonePat5, phonePat6,
   phonePat7, phonePat8, phonePat9, phonePat10, phonePat11]

/-- Validation shape of the first phone stage: three digits, a gap,
three digits, a gap, four digits (the gaps stay on one line). -/
def phoneShape : RE Unit := do
  _ ← rExact 3 rDigit
  _ ← rMany (rSat (fun c => c ≠ '\n'))
  _ ← rExact 3 rDigit
  _ ← rMany (rSat (fun c => c ≠ '\n'))
  _ ← rExact 4 rDigit
  pure ()

/-- First-stage match loop: first stripped match containing the 3-3-4
shape. -/
def phoneStage1Scan : List (List Char) → Option (List Char)
  | [] => none
  | m :: rest =>
    let ph := pyStripL m
    if rTest phoneShape ph then some ph else phoneStage1Scan rest

/-- First stage of extract_phone over the labelled patterns. -/
def phoneStage1 : List (RE (List Char)) → List Char → Option (List Char)
  | [], _ => none
  | p :: ps, cs =>
    match phoneStage1Scan (rFindAll p cs) with
    | some ph => some ph
    | none => phoneStage1 ps cs

/-- Second-stage match loop: first stripped match with at least ten
digits. -/
def phoneStage2Scan : List (List Char) → Option (List Char)
  | [] => none
  | m :: rest =>
    let ph := pyStripL m
    if countDigits ph ≥ 10 then some ph else phoneStage2Scan rest

/-- Second stage of extract_phone over all patterns. -/
def phoneStage2 : List (RE (List Char)) → List Char → Option (List Char)
  | [], _ => none
  | p :: ps, cs =>
    match phoneStage2Scan (rFindAll p cs) with
    | some ph => some ph
    | none => phoneStage2 ps cs

/-- Digit run searched for near a phone-related term in the third
stage: a digit then 7 to 15 loose body characters, in word
boundaries. -/
def windowNumPat : RE (List Char) := do
  rBound
  let d ← rDigit
  let l ← rRange 7 15 (rSat phChar)
  rBound
  pure (d :: l)

/-- Third-stage match loop: first window match with at least ten
digits (this stage does not strip). -/
def windowScan : List (List Char) → Option (List Char)
  | [] => none
  | m :: rest => if countDigits m ≥ 10 then some m else windowScan rest

/-- Third stage of extract_phone: for each phone term present as a
whole word in the lowered text, search a window from 20 characters
before it to 30 after it. -/
def phoneStage3 (cs low : List Char) : List String → Option (List Char)
  | [] => none
  | term :: ts =>
    match wwFindPos term.toList low with
    | some st =>
      let s0 := st.1 - 20
      let e0 := Nat.min cs.length (st.2 + 30)
      let nearby := (cs.drop s0).take (e0 - s0)
      match windowScan (rFindAll windowNumPat nearby) with
      | some num => some num
      | none => phoneStage3 cs low ts
    | none => phoneStage3 cs low ts

/-- Embedding of resume_parser.extract_phone: context-anchored
patterns with the 3-3-4 validation, then all patterns with a ten-digit
minimum, then the windowed search near phone terms, else the empty
string. -/
def extract_phone (t : String) : String :=
  let cs := t.toList
  match phoneStage1 [phonePat1, phonePat2, phonePat3] cs with
  | some ph => strOf ph
  | none =>
    match phoneStage2 phonePatterns cs with
    | some ph => strOf ph
    | none =>
      match phoneStage3 cs (pyLowerL cs)
          ["phone", "mobile", "cell", "tel", "contact", "call me", "reach me"] with
      | some num => strOf num
      | none => ""

/-! Section: resume_parser.parse_resume_file and parse_resumes -/

/-- Structured record extracted from one resume text; the provenance
fields are filled in by the batch loop, not by the extractor. -/
structure ParsedData where
  name : String
  email : String
  phone : String
  skills : List String
  experience_years : Nat
  seniority_level : String
  file_name : Option String := none
  file_path : Option String := none
deriving DecidableEq

/-- Embedding of resume_parser.extract_data_from_text. -/
def extract_data_from_text (t : String) : ParsedData :=
  { name := extract_name t
    email := extract_email t
    phone := extract_phone t
    skills := extract_skills t
    experience_years := extract_experience_years t
    seniority_level := determine_seniority_level t }

instance : DecidableEq (Except String String) := fun a b =>
  match a, b with
  | .ok x, .ok y => decidable_of_iff (x = y) (by simp)
  | .ok _, .error _ => isFalse (by simp)
  | .error _, .ok _ => isFalse (by simp)
  | .error x, .error y => decidable_of_iff (x = y) (by simp)

/-- Modelled from the spec: a file on disk together with the outcome
of text extraction.  The byte-level readers extract_text_from_pdf,
extract_text_from_docx and extract_text_from_txt call external
libraries and the filesystem, which are outside the embedding; per the
specification they either produce the concatenated visible text or
raise an extraction error, so a file is modelled by its path, its
regular-file flag, and that outcome. -/
structure MFile where
  path : String
  isFile : Bool
  text : Except String String
deriving DecidableEq

/-- Last path component (pathlib name). -/
def pathName (p : String) : String := (pySplit '/' p).getLastD ""

/-- File extension of the last component including the dot, empty when
the name has no dot or only a leading dot (pathlib suffix). -/
def pathSuffix (p : String) : String :=
  let rev := (pathName p).toList.reverse
  let extRev := rev.takeWhile (fun c => c ≠ '.')
  let base := (rev.dropWhile (fun c => c ≠ '.')).drop 1
  if rev.contains '.' && base ≠ [] then strOf ('.' :: extRev.reverse) else ""

/-- Embedding of resume_parser.parse_resume_file: dispatch on the
lowered suffix; a recognized file whose extraction outcome is an error
yields none (the try block catches the raised error and returns None);
an unsupported suffix yields none as well. -/
def parse_resume_file (f : MFile) : Option ParsedData :=
  let sfx := pyLower (pathSuffix f.path)
  if sfx = ".pdf" || sfx = ".docx" || sfx = ".doc" || sfx = ".txt" then
    match f.text with
    | Except.ok t => some (extract_data_from_text t)
    | Except.error _ => none
  else none

/-- Supported suffixes of the batch loop. -/
def supportedExt (s : String) : Bool :=
  s = ".pdf" || s = ".docx" || s = ".doc" || s = ".txt"

/-- Provenance annotation done by the batch loop on a parsed record:
the two dictionary assignments of file name and path. -/
def annotate (f : MFile) (d : ParsedData) : ParsedData :=
  { d with file_name := some (pathName f.path), file_path := some f.path }

/-- Embedding of resume_parser.parse_resumes: iterate over the folder,
keep regular files with a supported suffix, parse each one, skip
failures, and annotate successes with their file name and path. -/
def parse_resumes : List MFile → List ParsedData
  | [] => []
  | f :: fs =>
    if f.isFile && supportedExt (pyLower (pathSuffix f.path)) then
      match parse_resume_file f with
      | some d => annotate f d :: parse_resumes fs
      | none => parse_resumes fs
    else parse_resumes fs

/-- Unfolding equation of parse_resumes at a cons cell. -/
theorem parse_resumes_cons (f : MFile) (fs : List MFile) :
    parse_resumes (f :: fs) =
      if (f.isFile && supportedExt (pyLower (pathSuffix f.path))) = true then
        (match parse_resume_file f with
          | some d => annotate f d :: parse_resumes fs
          | none => parse_resumes fs)
      else parse_resumes fs := rfl

/-! Section: similarity_calculator: preprocessing -/

/-- Modelled from the spec at the NLTK interface: the stopword corpus.
The source downloads the NLTK english list and falls back to this
BASIC_STOPWORDS set, defined verbatim in the source, when the download
fails; the embedding uses that in-source list.  The development never
relies on a word that is a stopword in one list and not the other. -/
def basicStopwords : List String := [
  "i", "me", "my", "myself", "we", "our", "ours", "ourselves", "you",
  "your", "yours", "yourself", "yourselves", "he", "him", "his", "himself",
  "she", "her", "hers", "herself", "it", "its", "itself", "they", "them",
  "their", "theirs", "themselves", "what", "which", "who", "whom", "this",
  "that", "these", "those", "am", "is", "are", "was", "were", "be", "been",
  "being", "have", "has", "had", "having", "do", "does", "did", "doing",
  "a", "an", "the", "and", "but", "if", "or", "because", "as", "until",
  "while", "of", "at", "by", "for", "with", "about", "against", "between",
  "into", "through", "during", "before", "after", "above", "below", "to",
  "from", "up", "down", "in", "out", "on", "off", "over", "under", "again",
  "further", "then", "once", "here", "there", "when", "where", "why", "how",
  "all", "any", "both", "each", "few", "more", "most", "other", "some", "such",
  "no", "nor", "not", "only", "own", "same", "so", "than", "too", "very", "s",
  "t", "can", "will", "just", "don", "should", "now"]

/-- RegexpTokenizer on the word-character class: the maximal runs of
word characters, in order. -/
def wordTokenize : List Char → List Char → List (List Char)
  | [], cur => if cur = [] then [] else [cur.reverse]
  | c :: t, cur =>
    if isWordChar c then wordTokenize t (c :: cur)
    else if cur = [] then wordTokenize t []
    else cur.reverse :: wordTokenize t []

/-- Modelled from the spec at the NLTK interface: the Porter stemmer
is external library code; the specification only says tokens are
stemmed.  It is modelled as the identity map, which agrees with the
real stemmer on every token this development evaluates concretely
(python, go, and the like are Porter fixed points); the universally
quantified theorems below hold for any choice of stemmer. -/
def porterStem (w : String) : String := w

/-- Embedding of similarity_calculator.preprocess_text: lowercase,
tokenize on word characters, drop stopwords, stem. -/
def preprocess_text (t : String) : List String :=
  let toks := (wordTokenize (pyLower t).toList []).map strOf
  let toks := toks.filter (fun w => !basicStopwords.contains w)
  toks.map porterStem

/-- One counting step of the keyword frequency dictionary: first
occurrence order is preserved, later occurrences bump the count. -/
def bumpFreq : List (String × Nat) → String → List (String × Nat)
  | [], w => [(w, 1)]
  | (k, n) :: t, w =>
    if k = w then (k, n + 1) :: t else (k, n) :: bumpFreq t w

/-- Stable insertion for descending sort by count: an element goes
before the first entry whose count is not larger, so earlier-seen
words precede equal counts (Python sorted is stable). -/
def insertByCount (x : String × Nat) : List (String × Nat) → List (String × Nat)
  | [] => [x]
  | y :: t => if x.2 ≥ y.2 then x :: y :: t else y :: insertByCount x t

/-- Stable descending sort by count. -/
def sortByCountDesc : List (String × Nat) → List (String × Nat)
  | [] => []
  | x :: t => insertByCount x (sortByCountDesc t)

/-- Embedding of
similarity_calculator.extract_keywords_from_job_description: token
frequencies in first-seen order, stable descending sort, top 20, words
longer than two characters. -/
def extract_keywords_from_job_description (jd : String) : List String :=
  let toks := preprocess_text jd
  let freq := toks.foldl bumpFreq []
  let sorted := sortByCountDesc freq
  (sorted.take 20).filterMap (fun p => if p.1.length > 2 then some p.1 else none)

/-! Section: similarity_calculator.extract_seniority_level -/

/-- Embedding of similarity_calculator.extract_seniority_level:
SAP-specific titles first, then the general keyword ladder, then
domain-conditional experience thresholds. -/
def extract_seniority_level (jd : String) : String :=
  let low := pyLower jd
  if hasAnyWholeWord ["sap architect", "solution architect", "technical architect",
      "lead architect", "principal consultant"] low then "senior"
  else if hasAnyWholeWord ["sap lead", "team lead", "project lead", "senior basis",
      "senior consultant"] low then "lead"
  else if hasAnyWholeWord ["chief", "cto", "cio", "ceo", "vp", "vice president"] low then
    "executive"
  else if hasWholeWord "director" low then "director"
  else if hasAnyWholeWord ["senior", "sr", "lead", "principal"] low then "senior"
  else if hasAnyWholeWord ["manager", "management"] low then "manager"
  else if hasAnyWholeWord ["mid", "intermediate", "experienced"] low then "mid"
  else if hasAnyWholeWord ["junior", "jr"] low then "junior"
  else if hasAnyWholeWord ["entry", "graduate", "trainee", "intern"] low then "entry"
  else if hasAnyWholeWord ["sap", "basis", "hana", "abap", "erp", "s/4hana", "netweaver"] low then
    let ey := extract_experience_requirement jd
    if ey ≥ 10 then "senior"
    else if ey ≥ 7 then "lead"
    else if ey ≥ 4 then "mid"
    else if ey ≥ 2 then "junior"
    else "entry"
  else
    let ey := extract_experience_requirement jd
    if ey ≥ 8 then "senior"
    else if ey ≥ 5 then "mid"
    else if ey ≥ 2 then "junior"
    else "entry"

/-! Section: similarity_calculator.calculate_similarity -/

/-- Python true division: raises ZeroDivisionError on a zero
denominator, modelled in the Except monad. -/
def pyDiv (a b : ℚ) : Except String ℚ :=
  if b = 0 then Except.error "ZeroDivisionError" else Except.ok (a / b)

/-- Python round to one decimal, on rationals.  Python rounds floats
half to even; the model rounds half up, and the development only
evaluates it away from half-way points, where the two agree
(float-versus-rational representation is discussed where used). -/
def round1 (q : ℚ) : ℚ := ((round (q * 10) : ℤ) : ℚ) / 10

/-- The seniority ordinal dictionary of the source. -/
def seniorityMap : List (String × Nat) :=
  [("entry", 1), ("junior", 2), ("mid", 3), ("senior", 4), ("lead", 5),
   ("manager", 5), ("director", 6), ("executive", 7)]

/-- Dictionary get with default 0. -/
def seniorityVal (s : String) : Nat := (seniorityMap.lookup s).getD 0

/-- Result dictionary of calculate_similarity.  The context_match
field is optional because the early-return and exception-path
dictionaries of the source omit that key. -/
structure SimResult where
  score : ℚ
  match_category : String
  weighted_score : ℚ
  skill_match_details : List (String × String)
  experience_match : ℚ
  seniority_match : ℚ
  context_match : Option ℚ
  required_experience : Nat
deriving DecidableEq

/-- The zero result returned on empty inputs and on an internal
exception: score 0, category Low, all present sub-scores 0, no
context_match key. -/
def zeroResult : SimResult :=
  { score := 0
    match_category := "Low"
    weighted_score := 0
    skill_match_details := []
    experience_match := 0
    seniority_match := 0
    context_match := none
    required_experience := 0 }

/-- Python dict assignment on an association list: overwrite in place
when the key exists, append otherwise. -/
def dictSet (d : List (String × String)) (k v : String) : List (String × String) :=
  if d.any (fun p => p.1 = k) then
    d.map (fun p => if p.1 = k then (p.1, v) else p)
  else d ++ [(k, v)]

/-- One iteration of the skill loop: full match worth 1 with a 0.5
priority bonus when a token is a top keyword, partial match worth 0.3,
no match worth 0; the detail dictionary records the tier. -/
def skillStep (pj kw : List String) (acc : ℚ × List (String × String)) (skill : String) :
    ℚ × List (String × String) :=
  let toks := preprocess_text skill
  if toks.all (fun tk => pj.contains tk) then
    if toks.any (fun tk => kw.contains tk) then
      (acc.1 + 1 + 1/2, dictSet acc.2 skill "priority_match")
    else (acc.1 + 1, dictSet acc.2 skill "full_match")
  else if toks.any (fun tk => pj.contains tk) then
    (acc.1 + 3/10, dictSet acc.2 skill "partial_match")
  else (acc.1, dictSet acc.2 skill "no_match")

/-- The skill loop of calculate_similarity: match count and detail
dictionary. -/
def skillLoop (pj kw : List String) (skills : List String) : ℚ × List (String × String) :=
  skills.foldl (skillStep pj kw) (0, [])

/-- Experience modifier and extracted requirement, in the Except monad
(the ratio branches divide).  none means the caller supplied no
experience years, in which case the requirement is not even
extracted. -/
def experienceModifierE (sapJob : Bool) (jd : String) (ey : Option Nat) :
    Except String (ℚ × Nat) :=
  match ey with
  | none => Except.ok (0, 0)
  | some y =>
    let req := extract_experience_requirement jd
    if req ≠ 0 then
      if sapJob then
        if y ≥ req then Except.ok (100, req)
        else if (y : ℚ) ≥ (req : ℚ) * (4/5) then Except.ok (90, req)
        else do
          let q ← pyDiv (y : ℚ) (req : ℚ)
          pure (q * 100, req)
      else
        if y ≥ req then Except.ok (100, req)
        else do
          let q ← pyDiv (y : ℚ) (req : ℚ)
          pure (q * 100, req)
    else
      Except.ok ((if y ≥ 10 then (100 : ℚ) else if y ≥ 5 then 85 else if y ≥ 2 then 70
        else 50), req)

/-- Seniority modifier in the Except monad (the ratio branches
divide). -/
def seniorityModifierE (sapJob : Bool) (jd : String) (sl : Option String) :
    Except String ℚ :=
  match sl with
  | none => Except.ok 0
  | some lvl =>
    let reqSen := extract_seniority_level jd
    let cand := seniorityVal (pyLower lvl)
    let req := seniorityVal (pyLower reqSen)
    if req > 0 then
      if cand ≥ req then Except.ok 100
      else if sapJob then
        if req - cand ≤ 1 then Except.ok 85
        else do
          let q ← pyDiv (cand : ℚ) (req : ℚ)
          pure (q * 100)
      else do
        let q ← pyDiv (cand : ℚ) (req : ℚ)
        pure (q * 100)
    else
      if cand ≥ 3 then Except.ok 100
      else do
        let q ← pyDiv (cand : ℚ) 3
        pure (q * 100)

/-- Alternative of the basis-role pattern: basis, whitespace, a role
word. -/
def basisAltPart (w : String) : RE Unit := do
  rLitS "basis"
  rSpaces1
  rLitS w

/-- The basis-role context pattern: a boundary-wrapped alternation of
basis adm, basis consultant, basis admin, basis specialist. -/
def basisRolePat : RE Unit := do
  rBound
  rAltList [basisAltPart "adm", basisAltPart "consultant", basisAltPart "admin",
    basisAltPart "specialist"]
  rBound

/-- Context factor of calculate_similarity: 100 when the lowered job
text names a basis role, else 80 when the raw job text contains both
SAP and BASIS, else 0; only for SAP jobs whose skills contain SAP
BASIS. -/
def contextFactors (sapJob : Bool) (skills : List String) (jd : String) : ℚ :=
  if sapJob && skills.contains "SAP BASIS" then
    if rTest basisRolePat (pyLower jd).toList then 100
    else if substrContains jd "SAP" && substrContains jd "BASIS" then 80
    else 0
  else 0

/-- Embedding of similarity_calculator.calculate_similarity, the try
block: empty inputs return the zero dictionary; otherwise the skill
loop, the SAP bonus, the optional experience and seniority modifiers,
the context factor, and the normalized weighted combination.  Python
divisions are modelled by pyDiv in the Except monad and the weights
0.5, 0.35, 0.3, 0.2, 0.15, 0.05 by the same rationals; binary-float
representation noise (for instance 0.5 + 0.15 + 0.05 landing a hair
above 0.7, which can flip a category test at an exact threshold such
as a normalized score of exactly 75) is idealized away by computing
in ℚ. -/
def calculate_similarityE (skills : List String) (jd : String)
    (ey : Option Nat) (sl : Option String) : Except String SimResult :=
  if skills = [] ∨ jd = "" then Except.ok zeroResult
  else do
    let processed := preprocess_text jd
    let keywords := extract_keywords_from_job_description jd
    let md := skillLoop processed keywords skills
    let skillSim0 ←
      if 0 < skills.length then do
        let q ← pyDiv md.1 (skills.length : ℚ)
        pure (q * 100)
      else pure (0 : ℚ)
    let hasSap := skills.any (fun s => pyStartsWith s "SAP")
    let mentioned := substrContains (pyLower jd) "sap"
    let sapJob := hasSap && mentioned
    let skillSim := if sapJob then min 100 (skillSim0 + 15) else skillSim0
    let expWeight : ℚ := if sapJob then 35/100 else 3/10
    let er ← experienceModifierE sapJob jd ey
    let senWeight : ℚ := if sapJob then 20/100 else 15/100
    let senMod ← seniorityModifierE sapJob jd sl
    let ctx := contextFactors sapJob skills jd
    let ctxWeight : ℚ := 5/100
    let w1 := skillSim * (1/2)
    let t1 : ℚ := 1/2
    let w2 := w1 + (if ey.isSome then er.1 * expWeight else 0)
    let t2 := t1 + (if ey.isSome then expWeight else 0)
    let w3 := w2 + (if sl.isSome then senMod * senWeight else 0)
    let t3 := t2 + (if sl.isSome then senWeight else 0)
    let w4 := w3 + ctx * ctxWeight
    let t4 := t3 + ctxWeight
    let wNorm ← if 0 < t4 then pyDiv w4 t4 else pure w4
    let cat := if wNorm ≥ 75 then "High" else if wNorm ≥ 50 then "Medium" else "Low"
    Except.ok {
      score := round1 skillSim
      match_category := cat
      weighted_score := round1 wNorm
      skill_match_details := md.2
      experience_match := round1 er.1
      seniority_match := round1 senMod
      context_match := some (round1 ctx)
      required_experience := er.2 }

/-- Embedding of similarity_calculator.calculate_similarity as seen by
the caller: the blanket except clause maps any raised error to the
zero result. -/
def calculate_similarity (skills : List String) (jd : String)
    (ey : Option Nat) (sl : Option String) : SimResult :=
  match calculate_similarityE skills jd ey sl with
  | Except.ok r => r
  | Except.error _ => zeroResult

/-! Section: Helper lemmas connecting the Except embedding with a pure
mirror -/

theorem exbind_ok (a : α) (f : α → Except String β) : (Except.ok a >>= f) = f a := rfl

theorem expure_eq (a : α) : (pure a : Except String α) = Except.ok a := rfl

theorem pyDiv_ok (a b : ℚ) (h : b ≠ 0) : pyDiv a b = Except.ok (a / b) := by
  simp [pyDiv, h]

/-- Pure mirror of experienceModifierE: the divisions are guarded, so
the Except computation always succeeds with this value. -/
def expModPure (sapJob : Bool) (jd : String) (ey : Option Nat) : ℚ × Nat :=
  match ey with
  | none => (0, 0)
  | some y =>
    let req := extract_experience_requirement jd
    if req ≠ 0 then
      if sapJob then
        if y ≥ req then (100, req)
        else if (y : ℚ) ≥ (req : ℚ) * (4/5) then (90, req)
        else ((y : ℚ) / (req : ℚ) * 100, req)
      else
        if y ≥ req then (100, req)
        else ((y : ℚ) / (req : ℚ) * 100, req)
    else
      ((if y ≥ 10 then (100 : ℚ) else if y ≥ 5 then 85 else if y ≥ 2 then 70 else 50), req)

/-- Pure mirror of seniorityModifierE. -/
def senModPure (sapJob : Bool) (jd : String) (sl : Option String) : ℚ :=
  match sl with
  | none => 0
  | some lvl =>
    let reqSen := extract_seniority_level jd
    let cand := seniorityVal (pyLower lvl)
    let req := seniorityVal (pyLower reqSen)
    if req > 0 then
      if cand ≥ req then 100
      else if sapJob then
        if req - cand ≤ 1 then 85
        else (cand : ℚ) / (req : ℚ) * 100
      else (cand : ℚ) / (req : ℚ) * 100
    else
      if cand ≥ 3 then 100
      else (cand : ℚ) / 3 * 100

theorem expModE_eq (sapJob : Bool) (jd : String) (ey : Option Nat) :
    experienceModifierE sapJob jd ey = Except.ok (expModPure sapJob jd ey) := by
  cases ey with
  | none => rfl
  | some y =>
    unfold experienceModifierE expModPure
    split_ifs with h1 <;>
      simp_all [pyDiv, Nat.cast_eq_zero, exbind_ok, expure_eq] <;>
      split_ifs <;> rfl

theorem senModE_eq (sapJob : Bool) (jd : String) (sl : Option String) :
    seniorityModifierE sapJob jd sl = Except.ok (senModPure sapJob jd sl) := by
  cases sl with
  | none => rfl
  | some lvl =>
    unfold seniorityModifierE senModPure
    split_ifs with h1 <;>
      simp_all [pyDiv, Nat.cast_eq_zero, exbind_ok, expure_eq, Nat.pos_iff_ne_zero] <;>
      split_ifs <;> rfl

/-- Pure mirror of the main path of calculate_similarity (non-empty
skills and job description): every guarded division written as plain
division. -/
def mainResult (skills : List String) (jd : String) (ey : Option Nat) (sl : Option String) :
    SimResult :=
  let processed := preprocess_text jd
  let keywords := extract_keywords_from_job_description jd
  let md := skillLoop processed keywords skills
  let skillSim0 := md.1 / (skills.length : ℚ) * 100
  let hasSap := skills.any (fun s => pyStartsWith s "SAP")
  let mentioned := substrContains (pyLower jd) "sap"
  let sapJob := hasSap && mentioned
  let skillSim := if sapJob then min 100 (skillSim0 + 15) else skillSim0
  let expWeight : ℚ := if sapJob then 35/100 else 3/10
  let er := expModPure sapJob jd ey
  let senWeight : ℚ := if sapJob then 20/100 else 15/100
  let senMod := senModPure sapJob jd sl
  let ctx := contextFactors sapJob skills jd
  let w4 := skillSim * (1/2) + (if ey.isSome then er.1 * expWeight else 0) +
    (if sl.isSome then senMod * senWeight else 0) + ctx * (5/100)
  let t4 : ℚ := 1/2 + (if ey.isSome then expWeight else 0) +
    (if sl.isSome then senWeight else 0) + 5/100
  let wNorm := w4 / t4
  let cat := if wNorm ≥ 75 then "High" else if wNorm ≥ 50 then "Medium" else "Low"
  { score := round1 skillSim
    match_category := cat
    weighted_score := round1 wNorm
    skill_match_details := md.2
    experience_match := round1 er.1
    seniority_match := round1 senMod
    context_match := some (round1 ctx)
    required_experience := er.2 }

/-- The normalization denominator is always positive. -/
theorem totalWeight_pos (b1 b2 sap : Bool) :
    (0 : ℚ) < 1/2 + (if b1 then (if sap then (35:ℚ)/100 else 3/10) else 0) +
      (if b2 then (if sap then (20:ℚ)/100 else 15/100) else 0) + 5/100 := by
  split_ifs <;> norm_num

theorem calcE_eq (skills : List String) (jd : String) (ey : Option Nat) (sl : Option String)
    (h1 : skills ≠ []) (h2 : jd ≠ "") :
    calculate_similarityE skills jd ey sl = Except.ok (mainResult skills jd ey sl) := by
  have hlen : 0 < skills.length := List.length_pos.mpr h1
  have hlenQ : ((skills.length : ℚ)) ≠ 0 := by
    exact_mod_cast Nat.pos_iff_ne_zero.mp hlen
  have ht := totalWeight_pos ey.isSome sl.isSome
    (skills.any (fun s => pyStartsWith s "SAP") && substrContains (pyLower jd) "sap")
  have htne := ne_of_gt ht
  unfold calculate_similarityE mainResult
  rw [if_neg (by simp [h1, h2])]
  simp only [hlen, if_true, if_pos, expModE_eq, senModE_eq, exbind_ok, expure_eq,
    pyDiv_ok _ _ hlenQ, pyDiv_ok _ _ htne, ht]

theorem calcS_eq (skills : List String) (jd : String) (ey : Option Nat) (sl : Option String)
    (h1 : skills ≠ []) (h2 : jd ≠ "") :
    calculate_similarity skills jd ey sl = mainResult skills jd ey sl := by
  unfold calculate_similarity
  rw [calcE_eq skills jd ey sl h1 h2]

theorem calcS_empty (skills : List String) (jd : String) (ey : Option Nat) (sl : Option String)
    (h : skills = [] ∨ jd = "") :
    calculate_similarity skills jd ey sl = zeroResult := by
  unfold calculate_similarity calculate_similarityE
  rw [if_pos h]

/-! Section: Bounds on the sub-scores -/

/-- Weight a single skill contributes to the match count. -/
def skillWeight (pj kw : List String) (skill : String) : ℚ :=
  let toks := preprocess_text skill
  if toks.all (fun tk => pj.contains tk) then
    if toks.any (fun tk => kw.contains tk) then 3/2 else 1
  else if toks.any (fun tk => pj.contains tk) then 3/10 else 0

theorem skillStep_fst (pj kw : List String) (acc : ℚ × List (String × String)) (s : String) :
    (skillStep pj kw acc s).1 = acc.1 + skillWeight pj kw s := by
  simp only [skillStep, skillWeight]
  split_ifs <;> ring

theorem skillLoop_fst (pj kw : List String) :
    ∀ (l : List String) (acc : ℚ × List (String × String)),
      (l.foldl (skillStep pj kw) acc).1 = acc.1 + (l.map (skillWeight pj kw)).sum := by
  intro l
  induction l with
  | nil => intro acc; simp
  | cons x xs ih =>
    intro acc
    simp only [List.foldl_cons, List.map_cons, List.sum_cons, ih, skillStep_fst]
    ring

theorem skillWeight_nonneg (pj kw : List String) (s : String) : 0 ≤ skillWeight pj kw s := by
  simp only [skillWeight]
  split_ifs <;> norm_num

theorem skillWeight_le (pj kw : List String) (s : String) : skillWeight pj kw s ≤ 3/2 := by
  simp only [skillWeight]
  split_ifs <;> norm_num

theorem sum_weights_nonneg (pj kw : List String) :
    ∀ skills : List String, 0 ≤ (skills.map (skillWeight pj kw)).sum := by
  intro skills
  induction skills with
  | nil => simp
  | cons x xs ih =>
    simp only [List.map_cons, List.sum_cons]
    have := skillWeight_nonneg pj kw x
    linarith

theorem sum_weights_le (pj kw : List String) :
    ∀ skills : List String, (skills.map (skillWeight pj kw)).sum ≤ 3/2 * skills.length := by
  intro skills
  induction skills with
  | nil => simp
  | cons x xs ih =>
    simp only [List.map_cons, List.sum_cons, List.length_cons]
    have := skillWeight_le pj kw x
    push_cast
    linarith

theorem matchCount_nonneg (pj kw skills : List String) : 0 ≤ (skillLoop pj kw skills).1 := by
  unfold skillLoop
  rw [skillLoop_fst]
  simpa using sum_weights_nonneg pj kw skills

theorem matchCount_le (pj kw skills : List String) :
    (skillLoop pj kw skills).1 ≤ 3/2 * skills.length := by
  unfold skillLoop
  rw [skillLoop_fst]
  have h := sum_weights_le pj kw skills
  simp only []
  norm_num
  linarith

/-- Bounds of a guarded percentage ratio. -/
theorem ratio_bounds (y req : ℕ) (hreq : req ≠ 0) (hlt : y < req) :
    0 ≤ (y : ℚ) / (req : ℚ) * 100 ∧ (y : ℚ) / (req : ℚ) * 100 ≤ 100 := by
  have hq : (0 : ℚ) < req := by exact_mod_cast Nat.pos_of_ne_zero hreq
  constructor
  · positivity
  · have h : (y : ℚ) / (req : ℚ) ≤ 1 := by
      rw [div_le_one hq]
      exact_mod_cast hlt.le
    nlinarith

theorem expModPure_bounds (sap : Bool) (jd : String) (ey : Option Nat) :
    0 ≤ (expModPure sap jd ey).1 ∧ (expModPure sap jd ey).1 ≤ 100 := by
  cases ey with
  | none => simp [expModPure]
  | some y =>
    simp only [expModPure]
    split_ifs with h1 h2 h3 h4 h5 h6 h7 h8 h9 <;>
      first
        | (exact ratio_bounds y _ (by omega) (by omega))
        | norm_num

theorem senModPure_bounds (sap : Bool) (jd : String) (sl : Option String) :
    0 ≤ senModPure sap jd sl ∧ senModPure sap jd sl ≤ 100 := by
  cases sl with
  | none => simp [senModPure]
  | some lvl =>
    simp only [senModPure]
    split_ifs with h1 h2 h3 h4 h5 <;>
      first
        | (exact ratio_bounds _ _ (by omega) (by omega))
        | (have h9 := ratio_bounds (seniorityVal (pyLower lvl)) 3 (by omega) (by omega)
           push_cast at h9 ⊢
           exact h9)
        | norm_num

theorem ctx_bounds (sap : Bool) (skills : List String) (jd : String) :
    0 ≤ contextFactors sap skills jd ∧ contextFactors sap skills jd ≤ 100 := by
  unfold contextFactors
  split_ifs <;> norm_num

/-- Bounds of the skill similarity including the SAP bonus clamp. -/
theorem skillSim_bounds (m n : ℚ) (sap : Bool) (hm0 : 0 ≤ m) (hmle : m ≤ 3/2 * n)
    (hn : 0 < n) :
    0 ≤ (if sap then min 100 (m / n * 100 + 15) else m / n * 100) ∧
      (if sap then min 100 (m / n * 100 + 15) else m / n * 100) ≤ 150 := by
  have h0 : 0 ≤ m / n * 100 := by positivity
  have h1 : m / n * 100 ≤ 150 := by
    have h : m / n ≤ 3/2 := by
      rw [div_le_iff₀ hn]
      linarith
    nlinarith
  split_ifs
  · constructor
    · exact le_min (by norm_num) (by linarith)
    · calc min 100 (m / n * 100 + 15) ≤ 100 := min_le_left _ _
        _ ≤ 150 := by norm_num
  · exact ⟨h0, h1⟩

theorem expWeight_pos (sap : Bool) : (0 : ℚ) < if sap then 35/100 else 3/10 := by
  split_ifs <;> norm_num

theorem senWeight_pos (sap : Bool) : (0 : ℚ) < if sap then 20/100 else 15/100 := by
  split_ifs <;> norm_num

/-- A conditionally used weighted term is nonnegative. -/
theorem ite_term_nonneg (b : Bool) (e w : ℚ) (he : 0 ≤ e) (hw : 0 ≤ w) :
    0 ≤ (if b then e * w else 0) := by
  cases b <;> simp [mul_nonneg he hw]

/-- A conditionally used weighted term is below 150 times its
conditionally counted weight. -/
theorem ite_term_le (b : Bool) (e w : ℚ) (he2 : e ≤ 100) (hw : 0 ≤ w) :
    (if b then e * w else 0) ≤ 150 * (if b then w else 0) := by
  cases b <;> simp <;> nlinarith

/-- A conditionally counted weight is nonnegative. -/
theorem ite_w_nonneg (b : Bool) (w : ℚ) (hw : 0 ≤ w) : 0 ≤ (if b then w else 0) := by
  cases b <;> simp [hw]

/-- Bounds of the normalized weighted combination: each numerator term
is at most 150 times the matching denominator term, so the quotient
stays within 0 and 150. -/
theorem weighted_bounds (x E S c We Ws : ℚ)
    (hx : 0 ≤ x ∧ x ≤ 150) (hc : 0 ≤ c ∧ c ≤ 100)
    (hE : 0 ≤ E) (hE2 : E ≤ 150 * We) (hS : 0 ≤ S) (hS2 : S ≤ 150 * Ws)
    (hWe : 0 ≤ We) (hWs : 0 ≤ Ws) :
    0 ≤ (x * (1/2) + E + S + c * (5/100)) / (1/2 + We + Ws + 5/100) ∧
      (x * (1/2) + E + S + c * (5/100)) / (1/2 + We + Ws + 5/100) ≤ 150 := by
  have hden : (0:ℚ) < 1/2 + We + Ws + 5/100 := by linarith
  constructor
  · apply div_nonneg _ hden.le
    nlinarith [hx.1, hc.1]
  · rw [div_le_iff₀ hden]
    nlinarith [hx.2, hc.2]

/-! Section: Rounding lemmas -/

theorem round1_mono {a b : ℚ} (h : a ≤ b) : round1 a ≤ round1 b := by
  unfold round1
  have h1 : round (a * 10) ≤ round (b * 10) := by
    rw [round_eq, round_eq]
    exact Int.floor_le_floor (by linarith)
  have h2 : ((round (a * 10) : ℤ) : ℚ) ≤ ((round (b * 10) : ℤ) : ℚ) := by exact_mod_cast h1
  linarith

theorem round1_zero : round1 0 = 0 := by
  unfold round1
  norm_num

theorem round1_150 : round1 150 = 150 := by
  unfold round1
  norm_num

/-! Section: List maximum helpers (for claim C7) -/

theorem foldl_max_mem : ∀ (xs : List Nat) (a : Nat), xs.foldl Nat.max a ∈ a :: xs := by
  intro xs
  induction xs with
  | nil => intro a; simp
  | cons x xs ih =>
    intro a
    have h := ih (Nat.max a x)
    have hm : Nat.max a x = a ∨ Nat.max a x = x := by
      rcases Nat.le_total a x with hle | hle
      · right
        exact Nat.max_eq_right hle
      · left
        exact Nat.max_eq_left hle
    rcases List.mem_cons.mp h with h | h
    · rcases hm with hm | hm <;> (simp only [List.foldl_cons]; rw [h, hm]) <;> simp
    · simp only [List.foldl_cons]
      exact List.mem_cons_of_mem _ (List.mem_cons_of_mem _ h)

theorem le_foldl_max_init : ∀ (xs : List Nat) (a : Nat), a ≤ xs.foldl Nat.max a := by
  intro xs
  induction xs with
  | nil => intro a; simp
  | cons x xs ih =>
    intro a
    calc a ≤ Nat.max a x := Nat.le_max_left a x
      _ ≤ xs.foldl Nat.max (Nat.max a x) := ih _
      _ = (x :: xs).foldl Nat.max a := rfl

theorem le_foldl_max : ∀ (xs : List Nat) (a y : Nat), y ∈ xs → y ≤ xs.foldl Nat.max a := by
  intro xs
  induction xs with
  | nil => intro a y hy; cases hy
  | cons x xs ih =>
    intro a y hy
    rcases List.mem_cons.mp hy with h | h
    · subst h
      calc y ≤ Nat.max a y := Nat.le_max_right a y
        _ ≤ xs.foldl Nat.max (Nat.max a y) := le_foldl_max_init xs _
        _ = (y :: xs).foldl Nat.max a := rfl
    · exact ih _ _ h

theorem pyMaxList_mem (l : List Nat) (h : l ≠ []) : pyMaxList l ∈ l := by
  cases l with
  | nil => exact absurd rfl h
  | cons x xs =>
    unfold pyMaxList
    have hz : Nat.max 0 x = x := Nat.zero_max x
    simp only [List.foldl_cons, hz]
    exact foldl_max_mem xs x

theorem pyMaxList_ge (l : List Nat) : ∀ y ∈ l, y ≤ pyMaxList l := by
  intro y hy
  exact le_foldl_max l 0 y hy

/-! Section: Append-only fold helpers (for claim C8) -/

theorem foldl_preserve {β : Type} (step : List String → β → List String)
    (hstep : ∀ acc b x, x ∈ acc → x ∈ step acc b) :
    ∀ (l : List β) (acc : List String) (x : String), x ∈ acc → x ∈ l.foldl step acc := by
  intro l
  induction l with
  | nil => intro acc x hx; simpa using hx
  | cons b bs ih => intro acc x hx; exact ih _ _ (hstep _ _ _ hx)

theorem refineStep_preserve (acc : List String) (frag : List Char) (x : String)
    (hx : x ∈ acc) : x ∈ refineStep acc frag := by
  simp only [refineStep]
  split_ifs with h
  · apply foldl_preserve _ _ commonSkills acc x hx
    intro acc2 b y hy
    split_ifs <;> simp [hy]
  · exact hx

theorem mem_scanFold (t sk : String) (hw : hasWholeWordCI sk t = true) :
    ∀ (l : List String) (acc : List String), sk ∈ l →
      sk ∈ l.foldl (fun acc2 s2 => if hasWholeWordCI s2 t then acc2 ++ [s2] else acc2) acc := by
  intro l
  induction l with
  | nil => intro acc h; cases h
  | cons a as ih =>
    intro acc h
    rcases List.mem_cons.mp h with h | h
    · subst h
      simp only [List.foldl_cons, hw, if_true]
      apply foldl_preserve _ _ as (acc ++ [sk]) sk (by simp)
      intro acc2 b y hy
      split_ifs <;> simp [hy]
    · exact ih _ h

theorem mem_vocabScan (sk t : String) (hv : sk ∈ commonSkills)
    (hw : hasWholeWordCI sk t = true) : sk ∈ vocabScan t := by
  unfold vocabScan
  exact mem_scanFold t sk hw commonSkills [] hv

/-! Section: Claim theorems -/

/-- Claim C4 (code bug).  The specification and the source comments
say a hyphenated range such as 3-5 years experience yields the lower
bound 3, but pattern 1 matches the substring 5 years experience before
the range pattern is ever tried, so the code returns 5 (the range
branch is unreachable).  The fixed-order first-match strategy and the
default 0 behave as described. -/
theorem claim4_range_returns_upper_bound :
    extract_experience_requirement "3-5 years experience" = 5 ∧
      extract_experience_requirement "team player" = 0 := by
  constructor <;> decide

/-- Claim C7.  Whenever at least one candidate-experience pattern
matches, extract_experience_years returns the maximum of all integers
collected across all matches of all patterns: the result is one of the
collected values and bounds every collected value. -/
theorem claim7_experience_maximum (t : String) (h : allYearsOf t ≠ []) :
    extract_experience_years t ∈ allYearsOf t ∧
      ∀ y ∈ allYearsOf t, y ≤ extract_experience_years t := by
  unfold extract_experience_years
  rw [if_pos h]
  exact ⟨pyMaxList_mem _ h, pyMaxList_ge _⟩

/-- Witness for claim C7 at a text containing two pattern matches: the
collected list is non-empty and the theorem yields the maximum
property at that input. -/
theorem claim7_experience_maximum_witness :
    allYearsOf "3 years experience and 7 years experience" ≠ [] ∧
      (extract_experience_years "3 years experience and 7 years experience" ∈
          allYearsOf "3 years experience and 7 years experience" ∧
        ∀ y ∈ allYearsOf "3 years experience and 7 years experience",
          y ≤ extract_experience_years "3 years experience and 7 years experience") :=
  ⟨by decide, claim7_experience_maximum _ (by decide)⟩

/-- Claim C8.  Whenever both SAP and BASIS are matched as whole words,
the skill list contains the synthesized compound SAP BASIS, whether or
not the literal phrase occurs. -/
theorem claim8_sap_basis_synthesis (t : String)
    (hS : hasWholeWordCI "SAP" t = true) (hB : hasWholeWordCI "BASIS" t = true) :
    "SAP BASIS" ∈ extract_skills t := by
  unfold extract_skills
  have h1 : "SAP" ∈ vocabScan t := mem_vocabScan _ _ (by decide) hS
  have h2 : "BASIS" ∈ vocabScan t := mem_vocabScan _ _ (by decide) hB
  have h3 : "SAP BASIS" ∈
      (if (vocabScan t).contains "BASIS" && (vocabScan t).contains "SAP" &&
          !(vocabScan t).contains "SAP BASIS" then vocabScan t ++ ["SAP BASIS"]
        else vocabScan t) := by
    by_cases hc : (vocabScan t).contains "SAP BASIS" = true
    · have hm : "SAP BASIS" ∈ vocabScan t := by
        simpa [List.contains, List.elem_iff] using hc
      split_ifs <;> simp [hm]
    · have hnm : "SAP BASIS" ∉ vocabScan t := by
        simpa [List.contains, List.elem_iff] using hc
      rw [if_pos (by simp [h1, h2, hnm])]
      simp
  simp only [extract_skills] at *
  generalize hg : (if ((vocabScan t).contains "BASIS" && (vocabScan t).contains "SAP" &&
      !(vocabScan t).contains "SAP BASIS") = true then vocabScan t ++ ["SAP BASIS"]
    else vocabScan t) = found2 at h3 ⊢
  by_cases hl : found2.length < 3
  · rw [if_pos hl]
    apply foldl_preserve _ _ _ _ _ h3
    intro acc b y hy
    exact foldl_preserve _ (fun acc2 frag x hx => refineStep_preserve acc2 frag x hx)
      (splitFrags b) acc y hy
  · rw [if_neg hl]
    exact h3

/-- Witness for claim C8 at a text where SAP and BASIS occur only as
separate words: both hypotheses hold and the synthesized compound is
in the extracted skills. -/
theorem claim8_sap_basis_synthesis_witness :
    hasWholeWordCI "SAP" "knows SAP and BASIS administration" = true ∧
      hasWholeWordCI "BASIS" "knows SAP and BASIS administration" = true ∧
      "SAP BASIS" ∈ extract_skills "knows SAP and BASIS administration" :=
  ⟨by decide, by decide, claim8_sap_basis_synthesis _ (by decide) (by decide)⟩

/-- Claim C9.  A file on which parsing fails (extraction error or
unsupported extension) never aborts the batch: removing the failing
file from anywhere in the folder listing leaves the batch result
unchanged, so every other file is processed and its record is
unaffected. -/
theorem claim9_batch_isolation (xs ys : List MFile) (bad : MFile)
    (h : parse_resume_file bad = none) :
    parse_resumes (xs ++ bad :: ys) = parse_resumes (xs ++ ys) := by
  induction xs with
  | nil =>
    simp only [List.nil_append]
    rw [parse_resumes_cons]
    split_ifs with hc
    · rw [h]
    · rfl
  | cons f fs ih =>
    simp only [List.cons_append]
    rw [parse_resumes_cons f (fs ++ bad :: ys), parse_resumes_cons f (fs ++ ys)]
    split_ifs with hc
    · cases hp : parse_resume_file f <;> simp only [hp, ih]
    · exact ih

/-- Failing file used by the claim C9 witness: an unsupported
extension. -/
def badFile : MFile := { path := "folder/cv.xyz", isFile := true, text := Except.ok "" }

/-- Witness for claim C9: the unsupported file fails to parse, and by
the theorem a batch consisting of just that file produces the same
result as the empty batch. -/
theorem claim9_batch_isolation_witness :
    parse_resume_file badFile = none ∧ parse_resumes [badFile] = parse_resumes [] :=
  ⟨by decide, claim9_batch_isolation [] [] badFile (by decide)⟩

/-- Claim C1 (amended).  On an empty skills list or empty job
description, calculate_similarity returns the zero dictionary: score
0, category Low, weighted score 0, experience and seniority sub-scores
0, and NO contextual entry (the context_match key is absent from that
dictionary). -/
theorem claim1_empty_inputs_zero (skills : List String) (jd : String) (ey : Option Nat)
    (sl : Option String) (h : skills = [] ∨ jd = "") :
    calculate_similarity skills jd ey sl = zeroResult :=
  calcS_empty skills jd ey sl h

/-- Witness for claim C1 at both empty-input shapes. -/
theorem claim1_empty_inputs_zero_witness :
    calculate_similarity [] "x" none none = zeroResult ∧
      calculate_similarity ["Python"] "" none none = zeroResult :=
  ⟨claim1_empty_inputs_zero [] "x" none none (Or.inl rfl),
   claim1_empty_inputs_zero ["Python"] "" none none (Or.inr rfl)⟩

/-- Counterexample to claim C1 as stated: on empty skills the
contextual sub-score is not 0; the dictionary has no context_match
entry at all. -/
theorem claim1_counterexample :
    (calculate_similarity [] "x" none none).context_match = none ∧
      ¬ (calculate_similarity [] "x" none none).context_match = some 0 := by
  constructor
  · rfl
  · intro hcontra
    rw [show (calculate_similarity [] "x" none none).context_match = none from rfl] at hcontra
    exact Option.noConfusion hcontra

/-- Claim C5.  Scoring never raises to its caller: the try block of
calculate_similarity (with Python division modelled as raising on a
zero denominator) always succeeds, and the caller receives exactly its
value; by the definition of the handler an error would be absorbed
into the zero result. -/
theorem claim5_scoring_never_raises (skills : List String) (jd : String) (ey : Option Nat)
    (sl : Option String) :
    ∃ r, calculate_similarityE skills jd ey sl = Except.ok r ∧
      calculate_similarity skills jd ey sl = r := by
  by_cases h : skills = [] ∨ jd = ""
  · refine ⟨zeroResult, ?_, calcS_empty _ _ _ _ h⟩
    unfold calculate_similarityE
    rw [if_pos h]
  · push_neg at h
    exact ⟨mainResult skills jd ey sl, calcE_eq _ _ _ _ h.1 h.2, calcS_eq _ _ _ _ h.1 h.2⟩

/-- Claim C10.  When the caller omits experience years, the
required_experience field of the result is 0 for every job
description, because requirement extraction only runs when candidate
experience is supplied. -/
theorem claim10_required_experience_zero (skills : List String) (jd : String)
    (sl : Option String) :
    (calculate_similarity skills jd none sl).required_experience = 0 := by
  by_cases h : skills = [] ∨ jd = ""
  · rw [calcS_empty _ _ _ _ h]
    rfl
  · push_neg at h
    rw [calcS_eq _ _ _ _ h.1 h.2]
    simp [mainResult, expModPure]

/-- Claim C6 (amended).  extract_name scans the first 10 LINES of the
text (empty lines count toward the ten); among them, after stripping,
it returns the first non-empty line shorter than 50 characters with no
at sign and no 3-3-4 digit grouping, else Unknown. -/
theorem claim6_first_ten_lines (t : String) : extract_name t = extract_name_amended t := by
  unfold extract_name extract_name_amended
  generalize (pySplit '\n' t).take 10 = ls
  induction ls with
  | nil => rfl
  | cons l ls ih =>
    by_cases h1 : pyStrip l = "" <;>
      by_cases h2 : (pyStrip l).length < 50 <;>
        by_cases h3 : '@' ∈ (pyStrip l).data <;>
          by_cases h4 : rTest phoneLikePat (pyStrip l).data = true <;>
            simp [nameScan, nameLineOK, h1, h2, h3, h4, ih]

/-- Counterexample to claim C6 as stated: the code scans the first 10
raw lines, not the first 10 non-empty lines, so a name on line 11
after ten empty lines is missed although the claimed reading finds
it. -/
theorem claim6_counterexample :
    extract_name "\n\n\n\n\n\n\n\n\n\nJohn" = "Unknown" ∧
      extract_name_specClaim "\n\n\n\n\n\n\n\n\n\nJohn" = "John" ∧
      extract_name "\n\n\n\n\n\n\n\n\n\nJohn" ≠
        extract_name_specClaim "\n\n\n\n\n\n\n\n\n\nJohn" :=
  ⟨by decide, by decide, by decide⟩

/-- Claim C2 (amended).  For non-empty skills and job description the
weighted score lies between 0 and 150 (not 100: a priority bonus can
push the skill similarity to 150, which the normalization then cannot
bring below the other sub-scores). -/
theorem claim2_weighted_score_bounds (skills : List String) (jd : String) (ey : Option Nat)
    (sl : Option String) (h1 : skills ≠ []) (h2 : jd ≠ "") :
    0 ≤ (calculate_similarity skills jd ey sl).weighted_score ∧
      (calculate_similarity skills jd ey sl).weighted_score ≤ 150 := by
  rw [calcS_eq _ _ _ _ h1 h2]
  have hlen : (0 : ℚ) < (skills.length : ℚ) := by
    exact_mod_cast List.length_pos.mpr h1
  have hx := skillSim_bounds
    (skillLoop (preprocess_text jd) (extract_keywords_from_job_description jd) skills).1
    (skills.length : ℚ)
    (skills.any (fun s => pyStartsWith s "SAP") && substrContains (pyLower jd) "sap")
    (matchCount_nonneg _ _ _) (matchCount_le _ _ _) hlen
  have he := expModPure_bounds
    (skills.any (fun s => pyStartsWith s "SAP") && substrContains (pyLower jd) "sap") jd ey
  have hs := senModPure_bounds
    (skills.any (fun s => pyStartsWith s "SAP") && substrContains (pyLower jd) "sap") jd sl
  have hc := ctx_bounds
    (skills.any (fun s => pyStartsWith s "SAP") && substrContains (pyLower jd) "sap") skills jd
  have hwe := expWeight_pos
    (skills.any (fun s => pyStartsWith s "SAP") && substrContains (pyLower jd) "sap")
  have hws := senWeight_pos
    (skills.any (fun s => pyStartsWith s "SAP") && substrContains (pyLower jd) "sap")
  have hb := weighted_bounds _ _ _ _ _ _ hx hc
    (ite_term_nonneg ey.isSome _ _ he.1 hwe.le)
    (ite_term_le ey.isSome _ _ he.2 hwe.le)
    (ite_term_nonneg sl.isSome _ _ hs.1 hws.le)
    (ite_term_le sl.isSome _ _ hs.2 hws.le)
    (ite_w_nonneg ey.isSome _ hwe.le)
    (ite_w_nonneg sl.isSome _ hws.le)
  simp only [mainResult]
  exact ⟨le_trans (le_of_eq round1_zero.symm) (round1_mono hb.1),
    le_trans (round1_mono hb.2) (le_of_eq round1_150)⟩

/-- Witness for claim C2 at a concrete non-empty input. -/
theorem claim2_weighted_score_bounds_witness :
    (["python"] : List String) ≠ [] ∧ ("python" : String) ≠ "" ∧
      (0 ≤ (calculate_similarity ["python"] "python" none none).weighted_score ∧
        (calculate_similarity ["python"] "python" none none).weighted_score ≤ 150) :=
  ⟨by decide, by decide,
    claim2_weighted_score_bounds ["python"] "python" none none (by decide) (by decide)⟩

/-- Counterexample to claim C2 as stated: a single skill that is a
priority match yields skill similarity 150 and weighted score 136.4,
strictly above 100. -/
theorem claim2_counterexample :
    100 < (calculate_similarity ["python"] "python" none none).weighted_score := by
  rw [calcS_eq ["python"] "python" none none (by decide) (by decide)]
  have hpj : preprocess_text "python" = ["python"] := by decide
  have hkw : extract_keywords_from_job_description "python" = ["python"] := by decide
  have hsap : ((["python"] : List String).any fun s => pyStartsWith s "SAP") = false := by decide
  have hmen : substrContains (pyLower "python") "sap" = false := by decide
  have hm : (skillLoop ["python"] ["python"] ["python"]).1 = 3/2 := by
    simp [skillLoop, skillStep, hpj]
    norm_num
  simp only [mainResult, hpj, hkw, hm, hsap, hmen]
  simp [expModPure, senModPure, contextFactors]
  norm_num [round1]
  have hr : round ((15000 : ℚ) / 11) = 1364 := by
    have h15 : (15000 : ℚ) / 11 + 1/2 = 30011/22 := by norm_num
    rw [round_eq, h15, Int.floor_eq_iff]
    constructor <;> norm_num
  rw [hr]
  norm_num

/-- Claim C3 (amended).  Appending one skill whose tokens all appear
in the processed job description AND at least one of whose tokens is
among the extracted job keywords (so the appended skill is a priority
match carrying the maximal per-skill weight 1.5), and which does not
begin with SAP (so the SAP status of the list is unchanged), never
decreases the score field, all other inputs held identical.  Without
the priority condition the averaged score can drop, as the
counterexample shows. -/
theorem claim3_priority_append_monotone (skills : List String) (s jd : String)
    (ey : Option Nat) (sl : Option String)
    (hfull : ((preprocess_text s).all fun tk => (preprocess_text jd).contains tk) = true)
    (hprio : ((preprocess_text s).any fun tk =>
      (extract_keywords_from_job_description jd).contains tk) = true)
    (hsap : pyStartsWith s "SAP" = false) :
    (calculate_similarity skills jd ey sl).score ≤
      (calculate_similarity (skills ++ [s]) jd ey sl).score := by
  by_cases hjd : jd = ""
  · rw [calcS_empty skills jd ey sl (Or.inr hjd),
      calcS_empty (skills ++ [s]) jd ey sl (Or.inr hjd)]
  · have hw : skillWeight (preprocess_text jd)
        (extract_keywords_from_job_description jd) s = 3/2 := by
      simp only [skillWeight]
      rw [if_pos hfull, if_pos hprio]
    cases skills with
    | nil =>
      simp only [List.nil_append]
      rw [calcS_empty [] jd ey sl (Or.inl rfl), calcS_eq [s] jd ey sl (by simp) hjd]
      have h0 : zeroResult.score = 0 := rfl
      rw [h0]
      have hlen : (0 : ℚ) < (([s] : List String).length : ℚ) := by norm_num
      have hx := skillSim_bounds
        (skillLoop (preprocess_text jd) (extract_keywords_from_job_description jd) [s]).1
        (([s] : List String).length : ℚ)
        (([s].any fun x => pyStartsWith x "SAP") && substrContains (pyLower jd) "sap")
        (matchCount_nonneg _ _ _) (matchCount_le _ _ _) hlen
      simp only [mainResult]
      exact le_trans (le_of_eq round1_zero.symm) (round1_mono hx.1)
    | cons a as =>
      have hne : (a :: as) ≠ [] := by simp
      have hne2 : (a :: as) ++ [s] ≠ [] := by simp
      rw [calcS_eq _ _ _ _ hne hjd, calcS_eq _ _ _ _ hne2 hjd]
      simp only [mainResult]
      apply round1_mono
      have hsapEq : (((a :: as) ++ [s]).any fun x => pyStartsWith x "SAP") =
          ((a :: as).any fun x => pyStartsWith x "SAP") := by
        simp [List.any_append, hsap]
      rw [hsapEq]
      have hm : (skillLoop (preprocess_text jd) (extract_keywords_from_job_description jd)
          ((a :: as) ++ [s])).1 =
          (skillLoop (preprocess_text jd) (extract_keywords_from_job_description jd)
            (a :: as)).1 + 3/2 := by
        unfold skillLoop
        rw [List.foldl_append]
        simp only [List.foldl_cons, List.foldl_nil]
        rw [skillStep_fst, hw]
      rw [hm]
      have hm0 : 0 ≤ (skillLoop (preprocess_text jd)
          (extract_keywords_from_job_description jd) (a :: as)).1 :=
        matchCount_nonneg _ _ _
      have hmle := matchCount_le (preprocess_text jd)
        (extract_keywords_from_job_description jd) (a :: as)
      have hlen : (0 : ℚ) < ((a :: as).length : ℚ) := by
        exact_mod_cast List.length_pos.mpr hne
      have hlen2 : ((((a :: as) ++ [s]) : List String).length : ℚ) =
          ((a :: as).length : ℚ) + 1 := by
        push_cast [List.length_append]
        norm_num
      have hbase : (skillLoop (preprocess_text jd)
            (extract_keywords_from_job_description jd) (a :: as)).1 /
            ((a :: as).length : ℚ) * 100 ≤
          ((skillLoop (preprocess_text jd)
            (extract_keywords_from_job_description jd) (a :: as)).1 + 3/2) /
            ((((a :: as) ++ [s]) : List String).length : ℚ) * 100 := by
        rw [hlen2]
        have hdiv : (skillLoop (preprocess_text jd)
              (extract_keywords_from_job_description jd) (a :: as)).1 /
              ((a :: as).length : ℚ) ≤
            ((skillLoop (preprocess_text jd)
              (extract_keywords_from_job_description jd) (a :: as)).1 + 3/2) /
              (((a :: as).length : ℚ) + 1) := by
          rw [div_le_div_iff hlen (by linarith)]
          nlinarith [hmle]
        nlinarith [hdiv]
      split_ifs with hcond
      · exact min_le_min le_rfl (by linarith)
      · exact hbase

/-- Witness for claim C3: appending the priority-matching skill python
to the list containing go never decreases the score. -/
theorem claim3_priority_append_monotone_witness :
    ((preprocess_text "python").all fun tk =>
        (preprocess_text "python go").contains tk) = true ∧
      ((preprocess_text "python").any fun tk =>
        (extract_keywords_from_job_description "python go").contains tk) = true ∧
      pyStartsWith "python" "SAP" = false ∧
      (calculate_similarity ["go"] "python go" none none).score ≤
        (calculate_similarity (["go"] ++ ["python"]) "python go" none none).score :=
  ⟨by decide, by decide, by decide,
    claim3_priority_append_monotone ["go"] "python" "python go" none none
      (by decide) (by decide) (by decide)⟩

/-- Counterexample to claim C3 as stated: appending the skill go,
whose only token appears in the job description (a full match, weight
1), to the list containing only the priority-matched python (weight
1.5) drops the averaged score from 150 to 125. -/
theorem claim3_counterexample :
    ((preprocess_text "go").all fun tk =>
        (preprocess_text "python go").contains tk) = true ∧
      (calculate_similarity ["python", "go"] "python go" none none).score <
        (calculate_similarity ["python"] "python go" none none).score := by
  constructor
  · decide
  · rw [calcS_eq ["python", "go"] "python go" none none (by decide) (by decide),
      calcS_eq ["python"] "python go" none none (by decide) (by decide)]
    have hpj : preprocess_text "python go" = ["python", "go"] := by decide
    have hkw : extract_keywords_from_job_description "python go" = ["python"] := by decide
    have hp1 : preprocess_text "python" = ["python"] := by decide
    have hp2 : preprocess_text "go" = ["go"] := by decide
    have hsap1 : ((["python", "go"] : List String).any fun s => pyStartsWith s "SAP") =
        false := by decide
    have hsap2 : ((["python"] : List String).any fun s => pyStartsWith s "SAP") = false := by
      decide
    have hmen : substrContains (pyLower "python go") "sap" = false := by decide
    have hm1 : (skillLoop ["python", "go"] ["python"] ["python", "go"]).1 = 5/2 := by
      simp [skillLoop, skillStep, hp1, hp2]
      norm_num
    have hm2 : (skillLoop ["python", "go"] ["python"] ["python"]).1 = 3/2 := by
      simp [skillLoop, skillStep, hp1]
      norm_num
    simp only [mainResult, hpj, hkw, hm1, hm2, hsap1, hsap2, hmen]
    norm_num [round1]
